import Mathlib

/-!
Verification of the interpolation core of the animated-value graph:
the JavaScript range mapper (`AnimatedInterpolation.js`) and its Java
re-implementation (`InterpolationAnimatedNode.java`), together with the
string-pattern pipeline, configuration validation, config export and
native promotion.

Scalars are modelled by `RN.Num`, an IEEE-754-style value (NaN, the two
infinities, or a finite value).  Finite values are idealized as exact
rationals: rounding and overflow of binary64 are ignored, which is the
"within floating-point tolerance" reading used throughout the spec.
-/

namespace RN

/-- IEEE-754-style scalar: NaN, +∞, -∞, or a finite value (exact rational). -/
inductive Num where
  | nan : Num
  | posInf : Num
  | negInf : Num
  | fin : ℚ → Num
deriving DecidableEq

namespace Num

/-- IEEE `<`: false whenever either operand is NaN. -/
def lt : Num → Num → Bool
  | fin a, fin b => decide (a < b)
  | fin _, posInf => true
  | negInf, fin _ => true
  | negInf, posInf => true
  | _, _ => false

/-- IEEE `<=`: false whenever either operand is NaN. -/
def le : Num → Num → Bool
  | fin a, fin b => decide (a ≤ b)
  | fin _, posInf => true
  | negInf, fin _ => true
  | negInf, posInf => true
  | negInf, negInf => true
  | posInf, posInf => true
  | _, _ => false

/-- IEEE `>`. -/
def gt (a b : Num) : Bool := lt b a

/-- IEEE `>=`. -/
def ge (a b : Num) : Bool := le b a

/-- IEEE equality (JS `===` on numbers): NaN is not equal to anything. -/
def beq : Num → Num → Bool
  | fin a, fin b => decide (a = b)
  | posInf, posInf => true
  | negInf, negInf => true
  | _, _ => false

/-- IEEE negation. -/
def neg : Num → Num
  | nan => nan
  | posInf => negInf
  | negInf => posInf
  | fin a => fin (-a)

/-- IEEE addition (∞ + -∞ = NaN). -/
def add : Num → Num → Num
  | nan, _ => nan
  | _, nan => nan
  | posInf, negInf => nan
  | negInf, posInf => nan
  | posInf, _ => posInf
  | negInf, _ => negInf
  | fin _, posInf => posInf
  | fin _, negInf => negInf
  | fin a, fin b => fin (a + b)

/-- IEEE subtraction, as addition of the negation. -/
def sub (a b : Num) : Num := add a (neg b)

/-- IEEE multiplication (∞ * 0 = NaN). -/
def mul : Num → Num → Num
  | nan, _ => nan
  | _, nan => nan
  | posInf, posInf => posInf
  | posInf, negInf => negInf
  | negInf, posInf => negInf
  | negInf, negInf => posInf
  | posInf, fin b => if b = 0 then nan else if 0 < b then posInf else negInf
  | negInf, fin b => if b = 0 then nan else if 0 < b then negInf else posInf
  | fin a, posInf => if a = 0 then nan else if 0 < a then posInf else negInf
  | fin a, negInf => if a = 0 then nan else if 0 < a then negInf else posInf
  | fin a, fin b => fin (a * b)

/-- IEEE division: ∞/∞ = NaN, 0/0 = NaN, x/0 = ±∞ for x ≠ 0 (the zero
divisors arising in the code are differences `u - u`, i.e. IEEE +0,
so the sign convention below matches binary64). -/
def div : Num → Num → Num
  | nan, _ => nan
  | _, nan => nan
  | posInf, posInf => nan
  | posInf, negInf => nan
  | negInf, posInf => nan
  | negInf, negInf => nan
  | posInf, fin b => if 0 ≤ b then posInf else negInf
  | negInf, fin b => if 0 ≤ b then negInf else posInf
  | fin _, posInf => fin 0
  | fin _, negInf => fin 0
  | fin a, fin b => if b = 0 then (if a = 0 then nan else if 0 < a then posInf else negInf) else fin (a / b)

end Num

/-- The three extrapolation modes of the interpolation configuration. -/
inductive Extrapolate where
  | extend : Extrapolate
  | clamp : Extrapolate
  | identity : Extrapolate
deriving DecidableEq

/-- The JS `interpolate` function of `AnimatedInterpolation.js` (lines
113-179), translated statement by statement.  The mutable `result` is
threaded through as `r0`/`r1`/`r2`.  Note that the zero-width-segment
branch compares the original `input`, not `result`. -/
def interpolateJS (input inputMin inputMax outputMin outputMax : Num)
    (easing : Num → Num) (el er : Extrapolate) : Num :=
  let r0 := input
  if Num.lt r0 inputMin && decide (el = Extrapolate.identity) then r0 else
  let r1 := if Num.lt r0 inputMin && decide (el = Extrapolate.clamp) then inputMin else r0
  if Num.gt r1 inputMax && decide (er = Extrapolate.identity) then r1 else
  let r2 := if Num.gt r1 inputMax && decide (er = Extrapolate.clamp) then inputMax else r1
  if Num.beq outputMin outputMax then outputMin else
  if Num.beq inputMin inputMax then (if Num.le input inputMin then outputMin else outputMax) else
  let r3 := if Num.beq inputMin Num.negInf then Num.neg r2
            else if Num.beq inputMax Num.posInf then Num.sub r2 inputMin
            else Num.div (Num.sub r2 inputMin) (Num.sub inputMax inputMin)
  let r4 := easing r3
  if Num.beq outputMin Num.negInf then Num.neg r4
  else if Num.beq outputMax Num.posInf then Num.add r4 outputMin
  else Num.add (Num.mul r4 (Num.sub outputMax outputMin)) outputMin

/-- The Java static `interpolate` of `InterpolationAnimatedNode.java`
(lines 42-85): same extrapolation prefix as the JS tier, but the tail is
the single expression
`outputMin + (outputMax - outputMin) * (result - inputMin) / (inputMax - inputMin)`
with no degenerate-segment shortcuts, no infinite-bound special cases and
no easing.  The `default:` branches of the Java switch (unknown
extrapolation strings) cannot arise for the `Extrapolate` enum. -/
def interpolateJava (value inputMin inputMax outputMin outputMax : Num)
    (el er : Extrapolate) : Num :=
  if Num.lt value inputMin && decide (el = Extrapolate.identity) then value else
  let r1 := if Num.lt value inputMin && decide (el = Extrapolate.clamp) then inputMin else value
  if Num.gt r1 inputMax && decide (er = Extrapolate.identity) then r1 else
  let r2 := if Num.gt r1 inputMax && decide (er = Extrapolate.clamp) then inputMax else r1
  Num.add outputMin (Num.div (Num.mul (Num.sub outputMax outputMin) (Num.sub r2 inputMin)) (Num.sub inputMax inputMin))

/-- The loop body shared verbatim by JS `findRange` (lines 280-288) and
Java `findRangeIndex` (lines 124-132):
`for (i = 1; i < length - 1; ++i) { if (r[i] >= input) break; } return i - 1`.
The fuel argument is only a termination device; `fuel = length` more than
covers the at most `length - 2` iterations.  Out-of-bounds reads (which
cannot occur, see the range-bound theorem) are given the JS `undefined`
reading NaN. -/
def findRangeGo (input : Num) (inputRange : List Num) : ℕ → ℕ → ℕ
  | 0, i => i - 1
  | fuel + 1, i =>
    if i < inputRange.length - 1 then
      if Num.ge (inputRange.getD i Num.nan) input then i - 1
      else findRangeGo input inputRange fuel (i + 1)
    else i - 1

/-- JS `findRange` of `AnimatedInterpolation.js`. -/
def findRange (input : Num) (inputRange : List Num) : ℕ :=
  findRangeGo input inputRange inputRange.length 1

/-- Java `findRangeIndex` of `InterpolationAnimatedNode.java`: the loop is
character-for-character the same as the JS `findRange`. -/
def findRangeIndex (value : Num) (ranges : List Num) : ℕ :=
  findRangeGo value ranges ranges.length 1

/-- The closure returned by JS `createInterpolation` for a numeric output
range (lines 85-110): segment search, then `interpolate` on the selected
segment.  List reads out of bounds yield NaN (JS `undefined` arithmetic);
they never occur for ranges of length ≥ 2. -/
def evalNumericMapper (inputRange outputRange : List Num) (easing : Num → Num)
    (el er : Extrapolate) (input : Num) : Num :=
  let range := findRange input inputRange
  interpolateJS input (inputRange.getD range Num.nan) (inputRange.getD (range + 1) Num.nan)
    (outputRange.getD range Num.nan) (outputRange.getD (range + 1) Num.nan) easing el er

/-- The Java package-level `interpolate` (lines 87-122) for a numeric
output range (`outputRangeAnimations == null`): `findRangeIndex`, then the
private `interpolate` on the selected segment. -/
def interpolateJavaRange (value : Num) (inputRange outputRange : List Num)
    (el er : Extrapolate) : Num :=
  let rangeIndex := findRangeIndex value inputRange
  interpolateJava value (inputRange.getD rangeIndex Num.nan) (inputRange.getD (rangeIndex + 1) Num.nan)
    (outputRange.getD rangeIndex Num.nan) (outputRange.getD (rangeIndex + 1) Num.nan) el er

/-- The segment-selection rule in the words of the spec: "first index `i`
(1-based scan over positions `1..n-2`) where `inputRange[i] >= x`, else
`n-1`" — minus 1.  Stated independently of the loop for comparison with
`findRange`. -/
def specSegmentIndex (x : Num) (r : List Num) : ℕ :=
  match (List.range' 1 (r.length - 2)).find? (fun j => Num.ge (r.getD j Num.nan) x) with
  | some j => j - 1
  | none => (r.length - 1) - 1

/-- Characters matched by the string-shape regex `/[0-9\.-]+/g`. -/
def isShapeChar (c : Char) : Bool := c.isDigit || c = '.' || c = '-'

/-- The maximal runs of shape characters of a string, in order: the list
of matches of `/[0-9\.-]+/g`. -/
def splitRuns : List Char → List (List Char)
  | [] => []
  | c :: rest =>
    if isShapeChar c then
      match rest with
      | c' :: _ =>
        if isShapeChar c' then
          match splitRuns rest with
          | t :: ts => (c :: t) :: ts
          | [] => [[c]]
        else [c] :: splitRuns rest
      | [] => [[c]]
    else splitRuns rest

/-- `s.replace(stringShapeRegex, '')`: removing every maximal run of shape
characters is the same as removing every shape character. -/
def skeleton (s : String) : String := String.mk (s.data.filter (fun c => !(isShapeChar c)))

/-- `template.replace(stringShapeRegex, callback)` where the callback
returns the next replacement string: each maximal run of shape characters
is replaced by the next element of `reps`.  The Boolean flag records
whether the previous character was inside a run.  In the code the
replacement list always has exactly as many elements as there are runs;
an exhausted list (unreachable there) keeps the output well-defined by
inserting nothing. -/
def replaceRunsGo : List Char → List String → Bool → List Char
  | [], _, _ => []
  | c :: rest, reps, inRun =>
    if isShapeChar c then
      if inRun then replaceRunsGo rest reps true
      else
        match reps with
        | r :: reps' => r.data ++ replaceRunsGo rest reps' true
        | [] => replaceRunsGo rest [] true
    else c :: replaceRunsGo rest reps false

/-- Decimal digits to a natural number. -/
def digitsToNat (l : List Char) : ℕ :=
  l.foldl (fun acc c => acc * 10 + (c.toNat - 48)) 0

/-- Numeric value of an unsigned token over the shape alphabet, following
the JS `StrNumericLiteral` grammar restricted to digits and one dot:
`digits`, `digits.digits?`, `.digits`.  Anything else is not a number. -/
def parseUnsignedQ (s : List Char) : Option ℚ :=
  let ip := s.takeWhile Char.isDigit
  let rest := s.dropWhile Char.isDigit
  match rest with
  | [] => if ip.isEmpty then none else some (digitsToNat ip)
  | '.' :: fr =>
    if fr.all Char.isDigit ∧ (¬ ip.isEmpty ∨ ¬ fr.isEmpty) then
      some ((digitsToNat ip : ℚ) + (digitsToNat fr : ℚ) / ((10 : ℚ) ^ fr.length))
    else none
  | _ => none

/-- JS unary `+` on a token produced by the shape regex (`+number` in the
code): a leading `-` negates, an invalid literal (e.g. `"-"`, `"1-2"`,
`"1.2.3"`) is NaN.  Tokens are never empty, so `+"" = 0` cannot arise. -/
def parseNumQ (s : List Char) : Num :=
  match s with
  | '-' :: rest =>
    match parseUnsignedQ rest with
    | some q => .fin (-q)
    | none => .nan
  | _ =>
    match parseUnsignedQ s with
    | some q => .fin q
    | none => .nan

/-- The ordered numeric values of the shape-regex tokens of a string. -/
def tokenValues (s : String) : List Num := (splitRuns s.data).map parseNumQ

/-- Decimal digits of a natural number. -/
def natToStr (n : ℕ) : String := String.mk (Nat.toDigits 10 n)

/-- JS `String(number)` for a finite value, exact on values whose decimal
expansion terminates within 17 places (all values produced by the
rounding steps of the pattern evaluator are integers or multiples of
1/1000); on other values this is a 17-place approximation of the external
double formatting. -/
def decimalString (q : ℚ) : String :=
  let sgn := if q < 0 then "-" else ""
  let aq := if q < 0 then -q else q
  let ip := (Int.floor aq).toNat
  let frac := aq - (Int.floor aq : ℚ)
  if frac = 0 then sgn ++ natToStr ip
  else
    let scaled := (Int.floor (frac * 100000000000000000 + 1/2)).toNat
    let ds := Nat.toDigits 10 scaled
    let padded := List.replicate (17 - ds.length) '0' ++ ds
    let stripped := (padded.reverse.dropWhile (fun c => c = '0')).reverse
    if stripped.isEmpty then sgn ++ natToStr ip
    else sgn ++ natToStr ip ++ "." ++ String.mk stripped

/-- JS `Math.round`: round half toward +∞. -/
def jsRound (q : ℚ) : ℤ := Int.floor (q + 1/2)

/-- `Math.round(val)` on an IEEE value (NaN and infinities pass through). -/
def roundNum : Num → Num
  | .fin q => .fin (jsRound q)
  | x => x

/-- `Math.round(val * 1000) / 1000` on an IEEE value. -/
def round3Num : Num → Num
  | .fin q => .fin ((jsRound (q * 1000) : ℚ) / 1000)
  | x => x

/-- JS `String(number)` including the non-finite spellings. -/
def numToStrNum : Num → String
  | .nan => "NaN"
  | .posInf => "Infinity"
  | .negInf => "-Infinity"
  | .fin q => decimalString q

/-- Drop leading and trailing spaces. -/
def trimSpaces (cs : List Char) : List Char :=
  ((cs.dropWhile (fun c => c = ' ')).reverse.dropWhile (fun c => c = ' ')).reverse

/-- Split a character list at commas. -/
def splitCommas : List Char → List (List Char)
  | [] => [[]]
  | c :: rest =>
    if c = ',' then [] :: splitCommas rest
    else
      match splitCommas rest with
      | h :: t => (c :: h) :: t
      | [] => [[c]]

/-- Modelled from the spec: the external color-name normalizer
(`normalizeColor`, required by `AnimatedInterpolation.js` but not part of
the source tree; the spec specifies only its boundary:
`normalize(string) -> integer|null`, packed `0xRRGGBBAA`, `null` meaning
"not a recognized color").  This model recognizes the functional
`rgba(r, g, b, a)` / `rgb(r, g, b)` forms with integer channels in
0..255 and alpha in [0,1] (alpha is packed as `round(a * 255)`), and
returns `none` for everything else. -/
def normalizeColorModel (s : String) : Option ℕ :=
  if s.data.take 5 = ['r', 'g', 'b', 'a', '('] ∧ s.data.getLast? = some ')' then
    match (splitCommas ((s.data.drop 5).dropLast)).map (fun cs => parseNumQ (trimSpaces cs)) with
    | [.fin r, .fin g, .fin b, .fin a] =>
      if r.den = 1 ∧ g.den = 1 ∧ b.den = 1 ∧
         0 ≤ r.num ∧ r.num ≤ 255 ∧ 0 ≤ g.num ∧ g.num ≤ 255 ∧ 0 ≤ b.num ∧ b.num ≤ 255 ∧
         0 ≤ a ∧ a ≤ 1 then
        some (r.num.toNat * 16777216 + g.num.toNat * 65536 + b.num.toNat * 256 + (jsRound (a * 255)).toNat)
      else none
    | _ => none
  else if s.data.take 4 = ['r', 'g', 'b', '('] ∧ s.data.getLast? = some ')' then
    match (splitCommas ((s.data.drop 4).dropLast)).map (fun cs => parseNumQ (trimSpaces cs)) with
    | [.fin r, .fin g, .fin b] =>
      if r.den = 1 ∧ g.den = 1 ∧ b.den = 1 ∧
         0 ≤ r.num ∧ r.num ≤ 255 ∧ 0 ≤ g.num ∧ g.num ≤ 255 ∧ 0 ≤ b.num ∧ b.num ≤ 255 then
        some (r.num.toNat * 16777216 + g.num.toNat * 65536 + b.num.toNat * 256 + 255)
      else none
    | _ => none
  else none

/-- JS `colorToRgba` (lines 181-195): normalize through the external
color normalizer; a non-color passes through unchanged, a recognized
color is reformatted as `rgba(r, g, b, a)` via int32 bit extraction.
The JS bitwise chain `(c & 0xff000000) >>> 24` etc. on the packed 32-bit
value is division and remainder on the unsigned representative. -/
def colorToRgba (norm : String → Option ℕ) (input : String) : String :=
  match norm input with
  | none => input
  | some c0 =>
    let c := c0 % 4294967296
    let r := c / 16777216 % 256
    let g := c / 65536 % 256
    let b := c / 256 % 256
    let a : ℚ := ((c % 256 : ℕ) : ℚ) / 255
    "rgba(" ++ natToStr r ++ ", " ++ natToStr g ++ ", " ++ natToStr b ++ ", " ++ decimalString a ++ ")"

/-- JS `isRgbOrRgba` (lines 266-268): `range.startsWith('rgb')` (the
argument is a string by construction). -/
def isRgbOrRgba (range : String) : Bool := decide (range.data.take 3 = ['r', 'g', 'b'])

/-- The loop of JS `checkPattern` (lines 270-278): every further entry
must reduce to the skeleton of the first. -/
def checkPatternGo (pat : String) : List String → Except String Unit
  | [] => .ok ()
  | s :: rest =>
    if skeleton s = pat then checkPatternGo pat rest
    else .error ("invalid pattern " ++ s)

/-- JS `checkPattern`.  (For the empty list the JS code would fault on
`arr[0]`; it is only ever called on lists of length ≥ 2.) -/
def checkPatternExc : List String → Except String Unit
  | [] => .ok ()
  | first :: rest => checkPatternGo (skeleton first) rest

/-- Append one token list position-wise onto the channel accumulators:
`value.match(...).forEach((number, i) => outputRanges[i].push(+number))`.
`none` models the TypeError of pushing onto `outputRanges[i]` for an
index `i` beyond the channels created from the first entry. -/
def pushTokens : List (List Num) → List Num → Option (List (List Num))
  | acc, [] => some acc
  | [], _ :: _ => none
  | ch :: acc, t :: ts =>
    match pushTokens acc ts with
    | some acc' => some ((ch ++ [t]) :: acc')
    | none => none

/-- Fold `pushTokens` over all entries' token lists.  A token-free entry
gives `none`: `value.match(stringShapeRegex)` returns `null` exactly when
the entry holds no token, and the code calls `.forEach` on that `null`,
a construction-time TypeError. -/
def buildChannels (acc : List (List Num)) : List (List Num) → Option (List (List Num))
  | [] => some acc
  | toks :: rest =>
    if toks.isEmpty then none
    else match pushTokens acc toks with
    | some acc' => buildChannels acc' rest
    | none => none

/-- Whether `l.length = 2 ∧ l[0] === -Infinity ∧ l[1] === Infinity`:
the forbidden fully-infinite sole segment. -/
def doubleInf (l : List Num) : Bool :=
  decide (l.length = 2) && Num.beq (l.getD 0 Num.nan) Num.negInf && Num.beq (l.getD 1 Num.nan) Num.posInf

/-- JS `checkInfiniteRange` (lines 306-318) for numeric ranges: at least
two elements, and not the sole segment `(-∞, +∞)`. -/
def checkInfiniteRangeN (name : String) (arr : List Num) : Except String Unit :=
  if arr.length < 2 then .error (name ++ " must have at least 2 elements")
  else if doubleInf arr then .error (name ++ "cannot be ]-infinity;+infinity[")
  else .ok ()

/-- JS `checkInfiniteRange` applied to an output range of node references:
a node object is `!==` to any number, so only the length invariant can
fire. -/
def checkInfiniteRangeNodes (name : String) (arr : List ℕ) : Except String Unit :=
  if arr.length < 2 then .error (name ++ " must have at least 2 elements")
  else .ok ()

/-- The chain `arr[i] >= arr[i-1]` for `i = 1..len-1` under IEEE
comparison, short-circuiting at the first failure like the JS loop. -/
def monotoneGo : Num → List Num → Bool
  | _, [] => true
  | prev, cur :: rest => Num.ge cur prev && monotoneGo cur rest

/-- The monotonicity condition of `checkValidInputRange`. -/
def monotoneOK : List Num → Bool
  | [] => true
  | a :: rest => monotoneGo a rest

/-- JS `checkValidInputRange` (lines 290-304). -/
def checkValidInputRange (arr : List Num) : Except String Unit :=
  if arr.length < 2 then .error "inputRange must have at least 2 elements"
  else if monotoneOK arr then .ok ()
  else .error "inputRange must be monotonically increasing"

/-- The validation sequence of the numeric branch of `createInterpolation`
(lines 46-84): output range infinity check, input range infinity check,
input range validity, equal lengths. -/
def numericChecks (inputRange outputRange : List Num) : Except String Unit :=
  match checkInfiniteRangeN "outputRange" outputRange with
  | .error e => .error e
  | .ok () =>
  match checkInfiniteRangeN "inputRange" inputRange with
  | .error e => .error e
  | .ok () =>
  match checkValidInputRange inputRange with
  | .error e => .error e
  | .ok () =>
  if inputRange.length = outputRange.length then .ok ()
  else .error "inputRange and outputRange must have the same length"

/-- Validation of the node-reference branch of `createInterpolation`:
identical to the numeric branch except that the infinity test on the
output range is vacuous for node objects. -/
def nodeChecks (inputRange : List Num) (outputRange : List ℕ) : Except String Unit :=
  match checkInfiniteRangeNodes "outputRange" outputRange with
  | .error e => .error e
  | .ok () =>
  match checkInfiniteRangeN "inputRange" inputRange with
  | .error e => .error e
  | .ok () =>
  match checkValidInputRange inputRange with
  | .error e => .error e
  | .ok () =>
  if inputRange.length = outputRange.length then .ok ()
  else .error "inputRange and outputRange must have the same length"

/-- Per-channel recursive `createInterpolation` calls of the string
pipeline (lines 239-246): each channel's numeric sub-range is validated
with the full numeric check sequence against the shared input range. -/
def validateChannels (inputRange : List Num) : List (List Num) → Except String Unit
  | [] => .ok ()
  | ch :: rest =>
    match numericChecks inputRange ch with
    | .error e => .error e
    | .ok () => validateChannels inputRange rest

/-- The compiled string mapper: the normalized first template, the
rgb-rounding flag, and one numeric channel per token of the template. -/
structure StrMapper where
  template : String
  shouldRound : Bool
  inputRange : List Num
  channels : List (List Num)
  easing : Num → Num
  extrapolateLeft : Extrapolate
  extrapolateRight : Extrapolate

/-- JS `createInterpolationFromStringOutputRange` (lines 207-264),
construction part: length invariant, `colorToRgba` normalization,
`checkPattern`, channel extraction (with the construction-time
TypeErrors of the code: `match` returning `null` on any token-free
entry, and pushing onto a missing channel), and the recursive
per-channel numeric validation. -/
def createFromStringOutputRange (norm : String → Option ℕ) (inputRange : List Num)
    (strs : List String) (easing : Num → Num) (el er : Extrapolate) :
    Except String StrMapper :=
  if strs.length < 2 then .error "Bad output range" else
  let outputRange := strs.map (colorToRgba norm)
  match checkPatternExc outputRange with
  | .error e => .error e
  | .ok () =>
  let toks0 := splitRuns (outputRange.headD "").data
  if toks0.isEmpty then .error "TypeError: match returned null" else
  match buildChannels (toks0.map (fun _ => [])) (outputRange.map tokenValues) with
  | none => .error "TypeError: pushed to a missing channel"
  | some channels =>
  match validateChannels inputRange channels with
  | .error e => .error e
  | .ok () =>
    .ok ⟨outputRange.headD "", isRgbOrRgba (outputRange.headD ""), inputRange, channels, easing, el, er⟩

/-- The three well-typed shapes of `config.outputRange`
(`number[] | string[] | NodeRef[]`, §6 of the spec); node references are
carried as identifiers into an arena. -/
inductive OutRange where
  | nums (l : List Num)
  | strs (l : List String)
  | nodes (l : List ℕ)

/-- An interpolation configuration after defaulting of the extrapolation
fields (`extrapolateLeft ?? extrapolate ?? 'extend'`, and mirrored). -/
structure Config where
  inputRange : List Num
  outputRange : OutRange
  easing : Num → Num
  extrapolateLeft : Extrapolate
  extrapolateRight : Extrapolate

/-- A compiled mapper, the result of `createInterpolation`. -/
inductive Mapper where
  | numericM (inputRange outputRange : List Num) (easing : Num → Num) (el er : Extrapolate)
  | nodesM (inputRange : List Num) (ids : List ℕ) (easing : Num → Num) (el er : Extrapolate)
  | strM (sm : StrMapper)

/-- JS `createInterpolation` (lines 46-111): dispatch on
`typeof outputRange[0] === 'string'`, then the branch-specific
construction-time validation. -/
def createInterpolationChecked (norm : String → Option ℕ) (cfg : Config) :
    Except String Mapper :=
  match cfg.outputRange with
  | .strs l =>
    match createFromStringOutputRange norm cfg.inputRange l cfg.easing
        cfg.extrapolateLeft cfg.extrapolateRight with
    | .error e => .error e
    | .ok sm => .ok (.strM sm)
  | .nums l =>
    match numericChecks cfg.inputRange l with
    | .error e => .error e
    | .ok () => .ok (.numericM cfg.inputRange l cfg.easing cfg.extrapolateLeft cfg.extrapolateRight)
  | .nodes l =>
    match nodeChecks cfg.inputRange l with
    | .error e => .error e
    | .ok () => .ok (.nodesM cfg.inputRange l cfg.easing cfg.extrapolateLeft cfg.extrapolateRight)

/-- Whether a constructor result is a success. -/
def okB {α : Type} : Except String α → Bool
  | .ok _ => true
  | .error _ => false

/-- One replacement value of the string evaluator (lines 252-263):
`val = +interpolations[i++](input)`, then
`shouldRound && i < 4 ? Math.round(val) : Math.round(val * 1000) / 1000`,
then `String(rounded)`.  `idx1` is the value of `i` after the
post-increment, i.e. channel index + 1. -/
def formatChannelValue (shouldRound : Bool) (idx1 : ℕ) (val : Num) : String :=
  numToStrNum (if shouldRound && decide (idx1 < 4) then roundNum val else round3Num val)

/-- The successive replacement strings of the string evaluator: the
running counter `i` is the code's post-incremented `i`, so channel `j`
(0-based) is formatted with `i = j + 1`. -/
def evalReps (sm : StrMapper) (input : Num) : List (List Num) → ℕ → List String
  | [], _ => []
  | ch :: rest, i =>
    formatChannelValue sm.shouldRound (i + 1)
      (evalNumericMapper sm.inputRange ch sm.easing sm.extrapolateLeft sm.extrapolateRight input)
      :: evalReps sm input rest (i + 1)

/-- The evaluation closure returned by
`createInterpolationFromStringOutputRange`: replace the template's token
runs, left to right, by the successive channels' mapped, rounded and
formatted values. -/
def evalStringMapper (sm : StrMapper) (input : Num) : String :=
  String.mk (replaceRunsGo sm.template.data (evalReps sm input sm.channels 0) false)

/-- A mapper output: number or string. -/
inductive OutVal where
  | n (v : Num)
  | s (str : String)
deriving DecidableEq

/-- Evaluation of a compiled mapper.  `nodeVal` resolves the current
value of a node referenced from a node-valued output range
(`outputRange[range].__getValue()`). -/
def evalMapper (nodeVal : ℕ → Num) : Mapper → Num → OutVal
  | .numericM inR outR e el er, input => .n (evalNumericMapper inR outR e el er input)
  | .nodesM inR ids e el er, input => .n (evalNumericMapper inR (ids.map nodeVal) e el er input)
  | .strM sm, input => .s (evalStringMapper sm input)

/-- The binary64 value of `Math.PI`, as an exact rational
(3.141592653589793115997963...). -/
def piDouble : ℚ := 884279719003555 / 281474976710656

/-- `/deg$/.test(value)`. -/
def endsWithDeg (s : String) : Bool := decide (s.data.reverse.take 3 = ['g', 'e', 'd'])

/-- The nonnegative magnitude accepted by JS `parseFloat` after the sign:
`Infinity`, or `digits [. digits] [e|E [sign] digits]` as the longest
valid prefix. -/
def parseFloatMag (cs : List Char) : Option Num :=
  if cs.take 8 = ['I', 'n', 'f', 'i', 'n', 'i', 't', 'y'] then some Num.posInf
  else
    let ip := cs.takeWhile Char.isDigit
    let r1 := cs.dropWhile Char.isDigit
    let fr := match r1 with
      | '.' :: t => t.takeWhile Char.isDigit
      | _ => []
    let r2 := match r1 with
      | '.' :: t => t.dropWhile Char.isDigit
      | _ => r1
    if ip.isEmpty ∧ fr.isEmpty then none
    else
      let base : ℚ := (digitsToNat ip : ℚ) + (digitsToNat fr : ℚ) / ((10 : ℚ) ^ fr.length)
      let e : ℤ := match r2 with
        | 'e' :: t => parseExpPart t
        | 'E' :: t => parseExpPart t
        | _ => 0
      some (.fin (base * (10 : ℚ) ^ e))
where
  /-- The optional `[sign] digits` exponent; an invalid exponent part is
  not consumed (JS keeps the longest valid prefix), i.e. contributes 0. -/
  parseExpPart : List Char → ℤ
    | '-' :: d => -((digitsToNat (d.takeWhile Char.isDigit) : ℤ))
    | '+' :: d => digitsToNat (d.takeWhile Char.isDigit)
    | d => digitsToNat (d.takeWhile Char.isDigit)

/-- JS `parseFloat(value)`: skip whitespace, optional sign, magnitude;
NaN when no numeric prefix exists. -/
def parseFloatNum (s : String) : Num :=
  let cs := s.data.dropWhile (fun c => c = ' ' || c = '\t' || c = '\n' || c = '\r')
  match cs with
  | '-' :: rest =>
    match parseFloatMag rest with
    | some Num.posInf => Num.negInf
    | some (Num.fin q) => .fin (-q)
    | _ => Num.nan
  | '+' :: rest =>
    match parseFloatMag rest with
    | some v => v
    | none => Num.nan
  | _ =>
    match parseFloatMag cs with
    | some v => v
    | none => Num.nan

/-- `parseFloat(value) || 0` of the export transformation: NaN (falsy)
becomes 0; 0 stays 0; every other value passes through. -/
def parseFloatOr0 (s : String) : Num :=
  match parseFloatNum s with
  | .nan => .fin 0
  | v => v

/-- A runtime value appearing in an output range handed to
`__transformOutputRange`: a number, a string, a node reference with an
optional native tag, or a value of any other runtime type. -/
inductive OutExportEntry where
  | num (v : Num)
  | str (s : String)
  | node (tag : Option ℕ)
  | other

/-- One entry of `__transformOutputRange` (lines 373-399): a string
ending in `deg` converts via `parseFloat(value) || 0` to radians
(`degrees * Math.PI / 180.0`); any other string parses as already-radians;
a number passes through; a node reference resolves to its native tag,
which must be truthy (`invariant(tag, ...)`, so a missing tag and the
JS-falsy tag 0 both fail).  For any other value the code reaches
`invariant(true, 'Incompatible type passed to outputRange')` — which
never throws because its condition is `true` — and then returns 0. -/
def transformOne : OutExportEntry → Except String Num
  | .str s =>
    if endsWithDeg s then
      .ok (Num.div (Num.mul (parseFloatOr0 s) (.fin piDouble)) (.fin 180))
    else
      .ok (parseFloatOr0 s)
  | .num v => .ok v
  | .node tag =>
    match tag with
    | some t => if t = 0 then .error "There must be a native tag for this value." else .ok (.fin (t : ℚ))
    | none => .error "There must be a native tag for this value."
  | .other => .ok (.fin 0)

/-- `__transformOutputRange` over the whole range: JS `Array.prototype.map`
evaluates left to right and an exception aborts the map, which is the
short-circuiting sequence below. -/
def transformOutputRange : List OutExportEntry → Except String (List Num)
  | [] => .ok []
  | v :: rest =>
    match transformOne v with
    | .error e => .error e
    | .ok n =>
      match transformOutputRange rest with
      | .error e => .error e
      | .ok ns => .ok (n :: ns)

/-- A node of the value graph as seen by promotion: its parent (if any)
and the node-valued entries of its output range.  Nodes live in an arena
indexed by ℕ; a node's dependencies are nodes created before it, hence
have smaller indices (`WfGraph`). -/
structure NodeSpec where
  parent : Option ℕ
  outDeps : List ℕ

/-- Dependencies always point to earlier-created nodes. -/
def WfGraph (g : ℕ → NodeSpec) : Prop :=
  ∀ i, (∀ p, (g i).parent = some p → p < i) ∧ (∀ d ∈ (g i).outDeps, d < i)

/-- All promotion dependencies of node `i`: the parent first, then the
node-valued output-range entries in order. -/
def depsOf (g : ℕ → NodeSpec) (i : ℕ) : List ℕ :=
  (match (g i).parent with
   | some p => [p]
   | none => []) ++ (g i).outDeps

/-- `AnimatedInterpolation.__makeNative` (lines 335-341) over the arena:
promote the parent, then every node-valued output-range entry, then
`super.__makeNative()`.  The base behaviour (`AnimatedNode` /
`AnimatedWithChildren` are not part of the source tree) is modelled from
the spec: "implementers must dedupe by node identity" — the trace
appends the node's native-counterpart construction only if the node was
not promoted yet.  The state is the ordered trace of constructions.
The `< i` guards record arena well-formedness (they always hold under
`WfGraph`); fuel `i + 1` suffices since every recursive call strictly
decreases the index. -/
def makeNativeF : ℕ → (ℕ → NodeSpec) → ℕ → List ℕ → List ℕ
  | 0, _, _, s => s
  | fuel + 1, g, i, s =>
    let s2 := (depsOf g i).foldl (fun acc d => if d < i then makeNativeF fuel g d acc else acc) s
    if i ∈ s2 then s2 else s2 ++ [i]

/-- Promotion of node `i` starting from the construction trace `s`. -/
def makeNative (g : ℕ → NodeSpec) (i : ℕ) (s : List ℕ) : List ℕ :=
  makeNativeF (i + 1) g i s

/-- Every promoted node's dependencies are constructed strictly before it
in the trace. -/
def DepsBefore (g : ℕ → NodeSpec) (l : List ℕ) : Prop :=
  ∀ k j, l.get? k = some j → ∀ d ∈ depsOf g j, d ∈ l.take k

/-- Every promoted node's dependencies are promoted. -/
def DepsClosed (g : ℕ → NodeSpec) (l : List ℕ) : Prop :=
  ∀ j ∈ l, ∀ d ∈ depsOf g j, d ∈ l

/-- The promotion-order example of the spec: node 3's output range
references nodes 1 and 2, which share the common ancestor 0 that is also
node 3's parent. -/
def exampleGraph : ℕ → NodeSpec := fun i =>
  match i with
  | 1 => ⟨some 0, []⟩
  | 2 => ⟨some 0, []⟩
  | 3 => ⟨some 0, [1, 2]⟩
  | _ => ⟨none, []⟩

/-- The degenerate-segment step in the words of the claim under scrutiny:
extrapolation may replace `x` (under clamp), and the zero-width-segment
comparison is then performed on the replaced value. -/
def specClaimDegenerate (x a b c d : ℚ) (el er : Extrapolate) : Option ℚ :=
  if x < a ∧ el = Extrapolate.identity then none else
  let x1 := if x < a ∧ el = Extrapolate.clamp then a else x
  if x1 > b ∧ er = Extrapolate.identity then none else
  let x2 := if x1 > b ∧ er = Extrapolate.clamp then b else x1
  if c = d then some c
  else if a = b then (if x2 ≤ a then some c else some d)
  else none

/-! ### Reduction lemmas for the IEEE value model -/

namespace Num

@[simp] theorem lt_fin_fin (a b : ℚ) : lt (fin a) (fin b) = decide (a < b) := rfl
@[simp] theorem lt_fin_posInf (a : ℚ) : lt (fin a) posInf = true := rfl
@[simp] theorem lt_fin_negInf (a : ℚ) : lt (fin a) negInf = false := rfl
@[simp] theorem lt_fin_nan (a : ℚ) : lt (fin a) nan = false := rfl
@[simp] theorem lt_negInf_fin (b : ℚ) : lt negInf (fin b) = true := rfl
@[simp] theorem lt_negInf_posInf : lt negInf posInf = true := rfl
@[simp] theorem lt_negInf_negInf : lt negInf negInf = false := rfl
@[simp] theorem lt_negInf_nan : lt negInf nan = false := rfl
@[simp] theorem lt_posInf (y : Num) : lt posInf y = false := by cases y <;> rfl
@[simp] theorem lt_nan (y : Num) : lt nan y = false := by cases y <;> rfl

@[simp] theorem le_fin_fin (a b : ℚ) : le (fin a) (fin b) = decide (a ≤ b) := rfl
@[simp] theorem le_fin_posInf (a : ℚ) : le (fin a) posInf = true := rfl
@[simp] theorem le_fin_negInf (a : ℚ) : le (fin a) negInf = false := rfl
@[simp] theorem le_fin_nan (a : ℚ) : le (fin a) nan = false := rfl
@[simp] theorem le_negInf_fin (b : ℚ) : le negInf (fin b) = true := rfl
@[simp] theorem le_negInf_posInf : le negInf posInf = true := rfl
@[simp] theorem le_negInf_negInf : le negInf negInf = true := rfl
@[simp] theorem le_negInf_nan : le negInf nan = false := rfl
@[simp] theorem le_posInf_posInf : le posInf posInf = true := rfl
@[simp] theorem le_posInf_fin (b : ℚ) : le posInf (fin b) = false := rfl
@[simp] theorem le_posInf_negInf : le posInf negInf = false := rfl
@[simp] theorem le_posInf_nan : le posInf nan = false := rfl
@[simp] theorem le_nan (y : Num) : le nan y = false := by cases y <;> rfl

@[simp] theorem beq_fin_fin (a b : ℚ) : beq (fin a) (fin b) = decide (a = b) := rfl
@[simp] theorem beq_fin_posInf (a : ℚ) : beq (fin a) posInf = false := rfl
@[simp] theorem beq_fin_negInf (a : ℚ) : beq (fin a) negInf = false := rfl
@[simp] theorem beq_fin_nan (a : ℚ) : beq (fin a) nan = false := rfl
@[simp] theorem beq_posInf_posInf : beq posInf posInf = true := rfl
@[simp] theorem beq_posInf_fin (b : ℚ) : beq posInf (fin b) = false := rfl
@[simp] theorem beq_posInf_negInf : beq posInf negInf = false := rfl
@[simp] theorem beq_posInf_nan : beq posInf nan = false := rfl
@[simp] theorem beq_negInf_negInf : beq negInf negInf = true := rfl
@[simp] theorem beq_negInf_fin (b : ℚ) : beq negInf (fin b) = false := rfl
@[simp] theorem beq_negInf_posInf : beq negInf posInf = false := rfl
@[simp] theorem beq_negInf_nan : beq negInf nan = false := rfl
@[simp] theorem beq_nan (y : Num) : beq nan y = false := by cases y <;> rfl

@[simp] theorem neg_nan : neg nan = nan := rfl
@[simp] theorem neg_posInf : neg posInf = negInf := rfl
@[simp] theorem neg_negInf : neg negInf = posInf := rfl
@[simp] theorem neg_fin (a : ℚ) : neg (fin a) = fin (-a) := rfl

@[simp] theorem add_fin_fin (a b : ℚ) : add (fin a) (fin b) = fin (a + b) := rfl
@[simp] theorem add_fin_posInf (a : ℚ) : add (fin a) posInf = posInf := rfl
@[simp] theorem add_fin_negInf (a : ℚ) : add (fin a) negInf = negInf := rfl
@[simp] theorem add_fin_nan (a : ℚ) : add (fin a) nan = nan := rfl
@[simp] theorem add_posInf_fin (b : ℚ) : add posInf (fin b) = posInf := rfl
@[simp] theorem add_posInf_posInf : add posInf posInf = posInf := rfl
@[simp] theorem add_posInf_negInf : add posInf negInf = nan := rfl
@[simp] theorem add_posInf_nan : add posInf nan = nan := rfl
@[simp] theorem add_negInf_fin (b : ℚ) : add negInf (fin b) = negInf := rfl
@[simp] theorem add_negInf_negInf : add negInf negInf = negInf := rfl
@[simp] theorem add_negInf_posInf : add negInf posInf = nan := rfl
@[simp] theorem add_negInf_nan : add negInf nan = nan := rfl
@[simp] theorem add_nan (y : Num) : add nan y = nan := by cases y <;> rfl

@[simp] theorem sub_fin_fin (a b : ℚ) : sub (fin a) (fin b) = fin (a - b) := by
  simp [sub, sub_eq_add_neg]
@[simp] theorem sub_fin_posInf (a : ℚ) : sub (fin a) posInf = negInf := rfl
@[simp] theorem sub_fin_negInf (a : ℚ) : sub (fin a) negInf = posInf := rfl
@[simp] theorem sub_fin_nan (a : ℚ) : sub (fin a) nan = nan := rfl
@[simp] theorem sub_posInf_fin (b : ℚ) : sub posInf (fin b) = posInf := rfl
@[simp] theorem sub_negInf_fin (b : ℚ) : sub negInf (fin b) = negInf := rfl
@[simp] theorem sub_nan (y : Num) : sub nan y = nan := by cases y <;> rfl

@[simp] theorem mul_fin_fin (a b : ℚ) : mul (fin a) (fin b) = fin (a * b) := rfl
@[simp] theorem mul_fin_posInf (a : ℚ) :
    mul (fin a) posInf = (if a = 0 then nan else if 0 < a then posInf else negInf) := rfl
@[simp] theorem mul_fin_negInf (a : ℚ) :
    mul (fin a) negInf = (if a = 0 then nan else if 0 < a then negInf else posInf) := rfl
@[simp] theorem mul_fin_nan (a : ℚ) : mul (fin a) nan = nan := rfl
@[simp] theorem mul_nan (y : Num) : mul nan y = nan := by cases y <;> rfl

@[simp] theorem div_fin_fin (a b : ℚ) :
    div (fin a) (fin b) =
      (if b = 0 then (if a = 0 then nan else if 0 < a then posInf else negInf) else fin (a / b)) := rfl
@[simp] theorem div_fin_posInf (a : ℚ) : div (fin a) posInf = fin 0 := rfl
@[simp] theorem div_fin_negInf (a : ℚ) : div (fin a) negInf = fin 0 := rfl
@[simp] theorem div_fin_nan (a : ℚ) : div (fin a) nan = nan := rfl
@[simp] theorem div_posInf_fin (b : ℚ) : div posInf (fin b) = (if 0 ≤ b then posInf else negInf) := rfl
@[simp] theorem div_negInf_fin (b : ℚ) : div negInf (fin b) = (if 0 ≤ b then negInf else posInf) := rfl
@[simp] theorem div_nan (y : Num) : div nan y = nan := by cases y <;> rfl

end Num

/-! ### The segment-level JS/Java agreement -/

/-- On a finite, strictly ordered segment with finite output bounds and
linear easing, the JS and Java segment evaluators agree exactly. -/
theorem interpolate_seg_eq (x a b c d : ℚ) (el er : Extrapolate) (hab : a < b) :
    interpolateJS (.fin x) (.fin a) (.fin b) (.fin c) (.fin d) id el er =
    interpolateJava (.fin x) (.fin a) (.fin b) (.fin c) (.fin d) el er := by
  have hba : b - a ≠ 0 := sub_ne_zero.mpr (ne_of_gt hab)
  rcases eq_or_ne c d with hcd | hcd <;>
    (simp only [interpolateJS, interpolateJava, Num.gt, id_eq]
     simp [hcd, hab.ne, hba]
     split_ifs <;>
       first
         | rfl
         | (simp [hba, Num.fin.injEq] <;> field_simp <;> ring))

/-! ### Segment search: bounds and the spec characterization -/

theorem findRangeGo_le (x : Num) (r : List Num) :
    ∀ (fuel i : ℕ), 1 ≤ i → i ≤ r.length - 1 → findRangeGo x r fuel i ≤ r.length - 2 := by
  intro fuel
  induction fuel with
  | zero =>
    intro i h1 h2
    simp only [findRangeGo]
    omega
  | succ fuel ih =>
    intro i h1 h2
    simp only [findRangeGo]
    split_ifs with hlt hge
    · omega
    · exact ih (i + 1) (by omega) (by omega)
    · omega

/-- The segment index is at most `length - 2`. -/
theorem findRange_le (x : Num) (r : List Num) (h : 2 ≤ r.length) :
    findRange x r ≤ r.length - 2 :=
  findRangeGo_le x r r.length 1 le_rfl (by omega)

theorem findRangeGo_spec (x : Num) (r : List Num) :
    ∀ (fuel i : ℕ), 1 ≤ i → i ≤ r.length - 1 → r.length - 1 - i ≤ fuel →
      findRangeGo x r fuel i =
        (match (List.range' i (r.length - 1 - i)).find? (fun j => Num.ge (r.getD j Num.nan) x) with
         | some j => j - 1
         | none => r.length - 1 - 1) := by
  intro fuel
  induction fuel with
  | zero =>
    intro i h1 h2 h3
    have h0 : r.length - 1 - i = 0 := by omega
    rw [h0]
    simp only [findRangeGo, List.range'_zero, List.find?_nil]
    change i - 1 = r.length - 1 - 1
    omega
  | succ fuel ih =>
    intro i h1 h2 h3
    simp only [findRangeGo]
    by_cases hlt : i < r.length - 1
    · rw [if_pos hlt]
      have hcnt : r.length - 1 - i = (r.length - 1 - (i + 1)) + 1 := by omega
      rw [hcnt, List.range'_succ]
      by_cases hge : Num.ge (r.getD i Num.nan) x
      · rw [if_pos hge, List.find?_cons_of_pos _ (by simpa using hge)]
      · rw [if_neg hge, List.find?_cons_of_neg _ (by simpa using hge),
          ih (i + 1) (by omega) (by omega) (by omega)]
    · rw [if_neg hlt]
      have h0 : r.length - 1 - i = 0 := by omega
      rw [h0]
      simp only [List.range'_zero, List.find?_nil]
      change i - 1 = r.length - 1 - 1
      omega

/-- `findRange` satisfies the spec's "first index from a 1-based scan"
description verbatim. -/
theorem findRange_eq_specSegmentIndex (x : Num) (r : List Num) (h : 2 ≤ r.length) :
    findRange x r = specSegmentIndex x r := by
  have hs := findRangeGo_spec x r r.length 1 le_rfl (by omega) (by omega)
  have h11 : r.length - 1 - 1 = r.length - 2 := by omega
  rw [findRange, hs, specSegmentIndex, h11]

/-! ### Reading mapped rational lists -/

theorem getD_map_fin (l : List ℚ) :
    ∀ (i : ℕ), i < l.length → (l.map Num.fin).getD i Num.nan = Num.fin (l.getD i 0) := by
  induction l with
  | nil => intro i h; simp at h
  | cons a t ih =>
    intro i h
    cases i with
    | zero => simp
    | succ n => simpa using ih n (by simpa using h)

/-! ### Promotion: order, dedupe, idempotence -/

theorem makeNativeF_extends (g : ℕ → NodeSpec) :
    ∀ (fuel i : ℕ) (s : List ℕ), ∃ t, makeNativeF fuel g i s = s ++ t := by
  intro fuel
  induction fuel with
  | zero => intro i s; exact ⟨[], by simp [makeNativeF]⟩
  | succ fuel ih =>
    intro i s
    simp only [makeNativeF]
    have hfold : ∀ (l : List ℕ) (s' : List ℕ),
        ∃ t, l.foldl (fun acc d => if d < i then makeNativeF fuel g d acc else acc) s' = s' ++ t := by
      intro l
      induction l with
      | nil => intro s'; exact ⟨[], by simp⟩
      | cons d rest ihl =>
        intro s'
        obtain ⟨t1, h1⟩ : ∃ t1, (if d < i then makeNativeF fuel g d s' else s') = s' ++ t1 := by
          by_cases hd : d < i
          · simpa [hd] using ih d s'
          · exact ⟨[], by simp [hd]⟩
        obtain ⟨t2, h2⟩ := ihl (if d < i then makeNativeF fuel g d s' else s')
        exact ⟨t1 ++ t2, by simp only [List.foldl_cons]; rw [h2, h1, List.append_assoc]⟩
    obtain ⟨t, ht⟩ := hfold (depsOf g i) s
    rw [ht]
    by_cases hi : i ∈ s ++ t
    · exact ⟨t, by simp [hi]⟩
    · exact ⟨t ++ [i], by simp [hi]⟩

theorem foldPromote_extends (g : ℕ → NodeSpec) (fuel i : ℕ) :
    ∀ (l : List ℕ) (s : List ℕ),
      ∃ t, l.foldl (fun acc d => if d < i then makeNativeF fuel g d acc else acc) s = s ++ t := by
  intro l
  induction l with
  | nil => intro s; exact ⟨[], by simp⟩
  | cons d rest ihl =>
    intro s
    obtain ⟨t1, h1⟩ : ∃ t1, (if d < i then makeNativeF fuel g d s else s) = s ++ t1 := by
      by_cases hd : d < i
      · simpa [hd] using makeNativeF_extends g fuel d s
      · exact ⟨[], by simp [hd]⟩
    obtain ⟨t2, h2⟩ := ihl (if d < i then makeNativeF fuel g d s else s)
    exact ⟨t1 ++ t2, by simp only [List.foldl_cons]; rw [h2, h1, List.append_assoc]⟩

theorem makeNativeF_mem (g : ℕ → NodeSpec) (fuel i : ℕ) (s : List ℕ) (h : 0 < fuel) :
    i ∈ makeNativeF fuel g i s := by
  cases fuel with
  | zero => omega
  | succ fuel =>
    simp only [makeNativeF]
    split_ifs with hi
    · exact hi
    · simp

theorem makeNativeF_nodup (g : ℕ → NodeSpec) :
    ∀ (fuel i : ℕ) (s : List ℕ), s.Nodup → (makeNativeF fuel g i s).Nodup := by
  intro fuel
  induction fuel with
  | zero => intro i s hs; simpa [makeNativeF] using hs
  | succ fuel ih =>
    intro i s hs
    simp only [makeNativeF]
    have hfold : ∀ (l : List ℕ) (s' : List ℕ), s'.Nodup →
        (l.foldl (fun acc d => if d < i then makeNativeF fuel g d acc else acc) s').Nodup := by
      intro l
      induction l with
      | nil => intro s' hs'; simpa using hs'
      | cons d rest ihl =>
        intro s' hs'
        simp only [List.foldl_cons]
        apply ihl
        by_cases hd : d < i
        · simpa [hd] using ih d s' hs'
        · simpa [hd] using hs'
    have h2 := hfold (depsOf g i) s hs
    split_ifs with hi
    · exact h2
    · rw [List.nodup_append]
      refine ⟨h2, List.nodup_singleton i, fun a ha hb => ?_⟩
      simp only [List.mem_singleton] at hb
      subst hb
      exact hi ha

theorem depsBefore_closed {g : ℕ → NodeSpec} {l : List ℕ} (h : DepsBefore g l) :
    DepsClosed g l := by
  intro j hj d hd
  obtain ⟨k, hk⟩ := List.mem_iff_get?.mp hj
  exact List.mem_of_mem_take (h k j hk d hd)

theorem makeNativeF_depsBefore (g : ℕ → NodeSpec) (hg : WfGraph g) :
    ∀ (fuel i : ℕ), i < fuel → ∀ (s : List ℕ), DepsBefore g s →
      DepsBefore g (makeNativeF fuel g i s) ∧ ∀ d ∈ depsOf g i, d ∈ makeNativeF fuel g i s := by
  intro fuel
  induction fuel with
  | zero => intro i hi; omega
  | succ fuel ih =>
    intro i hi s hs
    have hdeps : ∀ d ∈ depsOf g i, d < i := by
      intro d hd
      rw [depsOf] at hd
      rcases List.mem_append.mp hd with h | h
      · rcases hmem : (g i).parent with _ | p
        · rw [hmem] at h; simp at h
        · rw [hmem] at h
          simp only [List.mem_singleton] at h
          subst h
          exact (hg i).1 d hmem
      · exact (hg i).2 d h
    have hfold : ∀ (l : List ℕ), (∀ d ∈ l, d < i) → ∀ (s' : List ℕ), DepsBefore g s' →
        DepsBefore g (l.foldl (fun acc d => if d < i then makeNativeF fuel g d acc else acc) s') ∧
        ∀ d ∈ l, d ∈ l.foldl (fun acc d => if d < i then makeNativeF fuel g d acc else acc) s' := by
      intro l
      induction l with
      | nil => intro _ s' hs'; exact ⟨by simpa using hs', by simp⟩
      | cons d rest ihl =>
        intro hl s' hs'
        have hd : d < i := hl d (by simp)
        have h1 := ih d (by omega) s' hs'
        simp only [List.foldl_cons, if_pos hd]
        have h2 := ihl (fun d' hd' => hl d' (by simp [hd'])) (makeNativeF fuel g d s') h1.1
        refine ⟨h2.1, ?_⟩
        intro d' hd'
        rcases List.mem_cons.mp hd' with rfl | hmem
        · obtain ⟨t, ht⟩ := foldPromote_extends g fuel i rest (makeNativeF fuel g d' s')
          rw [ht]
          exact List.mem_append_left _ (makeNativeF_mem g fuel d' s' (by omega))
        · exact h2.2 d' hmem
    have h2 := hfold (depsOf g i) hdeps s hs
    simp only [makeNativeF]
    split_ifs with hin
    · exact h2
    · set s2 := (depsOf g i).foldl (fun acc d => if d < i then makeNativeF fuel g d acc else acc) s with hs2
      constructor
      · intro k j hk d hd
        have hklt : k < s2.length + 1 := by
          have := List.get?_eq_some.mp hk
          simpa using this.1
        rcases Nat.lt_or_ge k s2.length with hks | hks
        · rw [List.get?_append hks] at hk
          have := h2.1 k j hk d hd
          rw [List.take_append_of_le_length (le_of_lt hks)]
          exact this
        · have hkeq : k = s2.length := by omega
          subst hkeq
          rw [List.get?_concat_length] at hk
          have hj : j = i := (Option.some_inj.mp hk).symm
          subst hj
          rw [List.take_left]
          exact h2.2 d hd
      · intro d hd
        exact List.mem_append_left _ (h2.2 d hd)

theorem makeNativeF_noop (g : ℕ → NodeSpec) :
    ∀ (fuel i : ℕ) (s : List ℕ), DepsClosed g s → i ∈ s → makeNativeF fuel g i s = s := by
  intro fuel
  induction fuel with
  | zero => intro i s _ _; rfl
  | succ fuel ih =>
    intro i s hc hi
    simp only [makeNativeF]
    have hfold : ∀ (l : List ℕ), (∀ d ∈ l, d ∈ s) →
        l.foldl (fun acc d => if d < i then makeNativeF fuel g d acc else acc) s = s := by
      intro l
      induction l with
      | nil => simp
      | cons d rest ihl =>
        intro hl
        simp only [List.foldl_cons]
        by_cases hd : d < i
        · rw [if_pos hd, ih d s hc (hl d (by simp))]
          exact ihl (fun d' h => hl d' (by simp [h]))
        · rw [if_neg hd]
          exact ihl (fun d' h => hl d' (by simp [h]))
    rw [hfold (depsOf g i) (hc i hi), if_pos hi]

/-! ### Construction-time validation -/

theorem okB_unit_iff (e : Except String Unit) : okB e = true ↔ e = .ok () := by
  cases e <;> simp [okB]

theorem numericChecks_ok_iff (inR outR : List Num) :
    okB (numericChecks inR outR) = true ↔
      (2 ≤ outR.length ∧ doubleInf outR = false ∧ 2 ≤ inR.length ∧ doubleInf inR = false ∧
       monotoneOK inR = true ∧ inR.length = outR.length) := by
  unfold numericChecks checkInfiniteRangeN checkValidInputRange
  split_ifs <;> simp_all [okB] <;> omega

theorem nodeChecks_ok_iff (inR : List Num) (outR : List ℕ) :
    okB (nodeChecks inR outR) = true ↔
      (2 ≤ outR.length ∧ 2 ≤ inR.length ∧ doubleInf inR = false ∧
       monotoneOK inR = true ∧ inR.length = outR.length) := by
  unfold nodeChecks checkInfiniteRangeNodes checkInfiniteRangeN checkValidInputRange
  split_ifs <;> simp_all [okB] <;> omega

theorem checkPatternGo_ok_iff (pat : String) :
    ∀ (l : List String), checkPatternGo pat l = .ok () ↔ ∀ s ∈ l, skeleton s = pat := by
  intro l
  induction l with
  | nil => simp [checkPatternGo]
  | cons s rest ih =>
    simp only [checkPatternGo]
    split_ifs with h
    · simp [h, ih]
    · constructor
      · intro hcontra; exact absurd hcontra (by simp)
      · intro hall; exact absurd (hall s (by simp)) h

theorem checkPatternExc_ok_iff (l : List String) :
    checkPatternExc l = .ok () ↔ ∀ s ∈ l, skeleton s = skeleton (l.headD "") := by
  cases l with
  | nil => simp [checkPatternExc]
  | cons first rest =>
    simp only [checkPatternExc, checkPatternGo_ok_iff, List.headD_cons]
    constructor
    · intro h s hs
      rcases List.mem_cons.mp hs with rfl | hmem
      · rfl
      · exact h s hmem
    · intro h s hs
      exact h s (by simp [hs])

theorem get?_eq_some_getD {α : Type} (l : List α) (d : α) :
    ∀ (j : ℕ), j < l.length → l.get? j = some (l.getD j d) := by
  induction l with
  | nil => intro j h; simp at h
  | cons a t ih =>
    intro j h
    cases j with
    | zero => simp
    | succ n => simpa using ih n (by simpa using h)

theorem getD_eq_of_get? {α : Type} {l : List α} {j : ℕ} {v : α} (d : α)
    (h : l.get? j = some v) : l.getD j d = v := by
  induction l generalizing j with
  | nil => simp at h
  | cons a t ih =>
    cases j with
    | zero => simp at h; simpa using h
    | succ n =>
      simp only [List.get?_cons_succ] at h
      simpa using ih h

theorem pushTokens_eq_zipWith :
    ∀ (acc : List (List Num)) (toks : List Num), toks.length = acc.length →
      pushTokens acc toks = some (List.zipWith (fun ch t => ch ++ [t]) acc toks) := by
  intro acc
  induction acc with
  | nil =>
    intro toks h
    cases toks with
    | nil => rfl
    | cons t ts => simp at h
  | cons ch acc ih =>
    intro toks h
    cases toks with
    | nil => simp at h
    | cons t ts =>
      have hlen : ts.length = acc.length := by simpa using h
      simp [pushTokens, ih ts hlen]

theorem zipWith_append_get? :
    ∀ (acc : List (List Num)) (toks : List Num) (j : ℕ), j < acc.length → toks.length = acc.length →
      (List.zipWith (fun ch t => ch ++ [t]) acc toks).get? j =
        some ((acc.getD j []) ++ [toks.getD j Num.nan]) := by
  intro acc
  induction acc with
  | nil => intro toks j h _; simp at h
  | cons ch acc ih =>
    intro toks j hj hlen
    cases toks with
    | nil => simp at hlen
    | cons t ts =>
      cases j with
      | zero => simp
      | succ n =>
        simp only [List.zipWith_cons_cons, List.get?_cons_succ, List.getD_cons_succ]
        exact ih ts n (by simpa using hj) (by simpa using hlen)

theorem buildChannels_uniform :
    ∀ (entries : List (List Num)) (acc : List (List Num)),
      (∀ toks ∈ entries, toks.length = acc.length) →
      (∀ toks ∈ entries, toks.isEmpty = false) →
      ∃ final, buildChannels acc entries = some final ∧ final.length = acc.length ∧
        ∀ j, j < acc.length →
          final.get? j = some ((acc.getD j []) ++ entries.map (fun toks => toks.getD j Num.nan)) := by
  intro entries
  induction entries with
  | nil =>
    intro acc _ _
    refine ⟨acc, rfl, rfl, ?_⟩
    intro j hj
    simpa using get?_eq_some_getD acc [] j hj
  | cons toks rest ih =>
    intro acc h hne
    have hlen : toks.length = acc.length := h toks (by simp)
    have hte : toks.isEmpty = false := hne toks (by simp)
    have hzlen : (List.zipWith (fun ch t => ch ++ [t]) acc toks).length = acc.length := by
      simp [hlen]
    obtain ⟨final, h1, h2, h3⟩ := ih (List.zipWith (fun ch t => ch ++ [t]) acc toks)
      (fun toks' ht => by rw [hzlen]; exact h toks' (by simp [ht]))
      (fun toks' ht => hne toks' (by simp [ht]))
    refine ⟨final, ?_, by omega, ?_⟩
    · simp only [buildChannels, hte, Bool.false_eq_true, if_false,
        pushTokens_eq_zipWith acc toks hlen]
      exact h1
    · intro j hj
      have hz := zipWith_append_get? acc toks j hj hlen
      have hzD := getD_eq_of_get? ([] : List Num) hz
      rw [h3 j (by omega), hzD]
      simp

theorem buildChannels_none_of_mem_empty :
    ∀ (entries : List (List Num)) (acc : List (List Num)), [] ∈ entries →
      buildChannels acc entries = none := by
  intro entries
  induction entries with
  | nil => intro acc h; simp at h
  | cons toks rest ih =>
    intro acc h
    rcases List.mem_cons.mp h with hh | hmem
    · rw [← hh]
      rfl
    · simp only [buildChannels]
      split_ifs with hte
      · rfl
      · cases hp : pushTokens acc toks with
        | none => rfl
        | some acc' => exact ih acc' hmem

theorem parseNumQ_not_inf (s : List Char) :
    parseNumQ s ≠ Num.posInf ∧ parseNumQ s ≠ Num.negInf := by
  unfold parseNumQ
  split <;> split <;> simp

theorem validateChannels_ok (inR : List Num) :
    ∀ (chans : List (List Num)), (∀ ch ∈ chans, numericChecks inR ch = .ok ()) →
      validateChannels inR chans = .ok () := by
  intro chans
  induction chans with
  | nil => intro _; rfl
  | cons ch rest ih =>
    intro h
    simp only [validateChannels, h ch (by simp)]
    exact ih (fun ch' h' => h ch' (by simp [h']))

theorem getD_map_const {α : Type} :
    ∀ (l : List α) (j : ℕ), (l.map (fun _ => ([] : List Num))).getD j [] = [] := by
  intro l
  induction l with
  | nil => intro j; simp
  | cons a t ih =>
    intro j
    cases j with
    | zero => simp
    | succ n => simpa using ih n

theorem beq_negInf_false {v : Num} (h : v ≠ Num.negInf) : Num.beq v Num.negInf = false := by
  cases v <;> simp_all

theorem doubleInf_false_of_ne {l : List Num} (h : l.getD 0 Num.nan ≠ Num.negInf) :
    doubleInf l = false := by
  unfold doubleInf
  rw [beq_negInf_false h]
  simp

theorem getD_not_negInf :
    ∀ (l : List Num) (n : ℕ), (∀ v ∈ l, v ≠ Num.negInf) → l.getD n Num.nan ≠ Num.negInf := by
  intro l
  induction l with
  | nil => intro n _; simp
  | cons a t ih =>
    intro n h
    cases n with
    | zero => simpa using h a (by simp)
    | succ m => simpa using ih m (fun v hv => h v (by simp [hv]))

theorem tokenValues_getD_ne_negInf (s : String) (j : ℕ) :
    (tokenValues s).getD j Num.nan ≠ Num.negInf := by
  apply getD_not_negInf
  intro v hv
  rw [tokenValues] at hv
  obtain ⟨run, _, hrun⟩ := List.mem_map.mp hv
  rw [← hrun]
  exact (parseNumQ_not_inf run).2

/-- A well-structured string output range — same positive token count per
entry, matching skeletons, entry count equal to the input length, valid
input range — constructs successfully. -/
theorem createFromString_ok (norm : String → Option ℕ) (inR : List Num)
    (strs : List String) (e : Num → Num) (el er : Extrapolate) (k : ℕ)
    (hlen : 2 ≤ strs.length)
    (hpat : checkPatternExc (strs.map (colorToRgba norm)) = .ok ())
    (hk : ∀ s ∈ strs.map (colorToRgba norm), (splitRuns s.data).length = k)
    (hk0 : 0 < k)
    (hin : inR.length = strs.length)
    (hmono : monotoneOK inR = true)
    (hinf : doubleInf inR = false) :
    okB (createFromStringOutputRange norm inR strs e el er) = true := by
  have hnotshort : ¬ strs.length < 2 := by omega
  simp only [createFromStringOutputRange, if_neg hnotshort, hpat]
  have hhead : (strs.map (colorToRgba norm)).headD "" ∈ strs.map (colorToRgba norm) := by
    cases strs with
    | nil => simp at hlen
    | cons s0 rest => simp
  have hk0len : (splitRuns ((strs.map (colorToRgba norm)).headD "").data).length = k :=
    hk _ hhead
  have hne : ¬ (splitRuns ((strs.map (colorToRgba norm)).headD "").data).isEmpty = true := by
    rw [List.isEmpty_iff_length_eq_zero]
    omega
  rw [if_neg hne]
  have hacc : ((splitRuns ((strs.map (colorToRgba norm)).headD "").data).map
      (fun _ => ([] : List Num))).length = k := by
    simpa using hk0len
  obtain ⟨final, h1, h2, h3⟩ := buildChannels_uniform
    ((strs.map (colorToRgba norm)).map tokenValues)
    ((splitRuns ((strs.map (colorToRgba norm)).headD "").data).map (fun _ => ([] : List Num)))
    (by
      intro toks ht
      obtain ⟨s, hs, hts⟩ := List.mem_map.mp ht
      rw [← hts, hacc, tokenValues, List.length_map]
      exact hk s hs)
    (by
      intro toks ht
      obtain ⟨s, hs, hts⟩ := List.mem_map.mp ht
      have hlen' : toks.length = k := by
        rw [← hts, tokenValues, List.length_map]
        exact hk s hs
      cases toks with
      | nil => simp at hlen'; omega
      | cons a t => rfl)
  have hval : validateChannels inR final = .ok () := by
    apply validateChannels_ok
    intro ch hch
    obtain ⟨j, hj⟩ := List.mem_iff_get?.mp hch
    have hjlt : j < final.length := by
      rcases List.get?_eq_some.mp hj with ⟨h, -⟩
      exact h
    have hjk : j < k := by rw [h2, hacc] at hjlt; exact hjlt
    have hcont := h3 j (by rw [hacc]; exact hjk)
    rw [hj] at hcont
    have hch2 : ch = ((strs.map (colorToRgba norm)).map tokenValues).map
        (fun toks => toks.getD j Num.nan) := by
      have h4 := Option.some_inj.mp hcont
      rw [getD_map_const] at h4
      simpa using h4
    have hchlen : ch.length = strs.length := by
      rw [hch2]; simp
    rw [← okB_unit_iff, numericChecks_ok_iff]
    have hinfch : doubleInf ch = false := by
      apply doubleInf_false_of_ne
      rw [hch2]
      apply getD_not_negInf
      intro v hv
      obtain ⟨toks, htoks, hvt⟩ := List.mem_map.mp hv
      obtain ⟨s, _, hts⟩ := List.mem_map.mp htoks
      rw [← hvt, ← hts]
      exact tokenValues_getD_ne_negInf s j
    exact ⟨by omega, hinfch, by omega, hinf, hmono, by omega⟩
  simp only [h1, hval]
  rfl

/-- Fewer than two string entries fail at construction. -/
theorem createFromString_err_short (norm : String → Option ℕ) (inR : List Num)
    (strs : List String) (e : Num → Num) (el er : Extrapolate)
    (h : strs.length < 2) :
    okB (createFromStringOutputRange norm inR strs e el er) = false := by
  simp [createFromStringOutputRange, h, okB]

/-- A skeleton mismatch among the normalized entries fails at
construction. -/
theorem createFromString_err_pattern (norm : String → Option ℕ) (inR : List Num)
    (strs : List String) (e : Num → Num) (el er : Extrapolate)
    (hpat : checkPatternExc (strs.map (colorToRgba norm)) ≠ .ok ()) :
    okB (createFromStringOutputRange norm inR strs e el er) = false := by
  by_cases h : strs.length < 2
  · simp [createFromStringOutputRange, h, okB]
  · simp only [createFromStringOutputRange, if_neg h]
    rcases hE : checkPatternExc (strs.map (colorToRgba norm)) with e' | u
    · simp only [hE]
      rfl
    · cases u
      exact absurd hE hpat

/-- A token-free entry anywhere in the normalized string range fails at
construction: its `value.match(stringShapeRegex)` is `null` and the
code's `.forEach` on it throws. -/
theorem createFromString_err_zerotoken (norm : String → Option ℕ) (inR : List Num)
    (strs : List String) (e : Num → Num) (el er : Extrapolate) (s : String)
    (hs : s ∈ strs) (hz : tokenValues (colorToRgba norm s) = []) :
    okB (createFromStringOutputRange norm inR strs e el er) = false := by
  by_cases hshort : strs.length < 2
  · exact createFromString_err_short norm inR strs e el er hshort
  · simp only [createFromStringOutputRange, if_neg hshort]
    rcases hE : checkPatternExc (strs.map (colorToRgba norm)) with e' | u
    · simp only [hE]
      rfl
    · cases u
      simp only [hE]
      by_cases h0 : (splitRuns ((strs.map (colorToRgba norm)).headD "").data).isEmpty = true
      · rw [if_pos h0]
        rfl
      · rw [if_neg h0]
        have hmem : ([] : List Num) ∈ (strs.map (colorToRgba norm)).map tokenValues := by
          rw [← hz]
          exact List.mem_map_of_mem tokenValues (List.mem_map_of_mem (colorToRgba norm) hs)
        rw [buildChannels_none_of_mem_empty _ _ hmem]
        rfl

/-- `createInterpolation` on a string range succeeds exactly when the
string pipeline construction does. -/
theorem createInterpolationChecked_strs (norm : String → Option ℕ) (inR : List Num)
    (l : List String) (e : Num → Num) (el er : Extrapolate) :
    okB (createInterpolationChecked norm ⟨inR, .strs l, e, el, er⟩) =
      okB (createFromStringOutputRange norm inR l e el er) := by
  simp only [createInterpolationChecked]
  rcases hE : createFromStringOutputRange norm inR l e el er with e' | sm <;> simp [okB]

/-! ### Claim theorems -/

/-- C2: for every input and every input range of length ≥ 2, the selected
segment index equals the spec's rule — the first index of the 1-based scan
over positions 1..n-2 where `inputRange[i] >= x` (else n-1), minus 1 — so
ties and low out-of-range inputs resolve to the first such segment and
high out-of-range inputs to the last.  In particular, for
`inputRange = [0,1,2]` and `outputRange = [10,20,30]`, `map(1)` selects
segment `[0,1]` (index 0) and returns 20. -/
theorem c2_segment_selection :
    (∀ (x : Num) (r : List Num), 2 ≤ r.length → findRange x r = specSegmentIndex x r) ∧
    findRange (.fin 1) [.fin 0, .fin 1, .fin 2] = 0 ∧
    evalNumericMapper [.fin 0, .fin 1, .fin 2] [.fin 10, .fin 20, .fin 30] id .extend .extend
      (.fin 1) = .fin 20 := by
  refine ⟨findRange_eq_specSegmentIndex, by decide, ?_⟩
  simp [evalNumericMapper, findRange, findRangeGo, interpolateJS, Num.gt, Num.ge]

/-- Witness for C2 at a concrete input. -/
theorem c2_witness :
    findRange (.fin 3) [.fin 0, .fin 1] = specSegmentIndex (.fin 3) [.fin 0, .fin 1] :=
  c2_segment_selection.1 (.fin 3) [.fin 0, .fin 1] (by decide)

/-- C10: for every IEEE input (NaN and infinities included) and every
input range of length `n ≥ 2`, the segment search returns an index
`i ≤ n - 2`, so the four segment reads `inputRange[i]`, `inputRange[i+1]`,
`outputRange[i]`, `outputRange[i+1]` are in bounds and evaluation is total
(the Lean evaluator returns a value for every input by construction). -/
theorem c10_range_index_in_bounds :
    ∀ (x : Num) (r : List Num), 2 ≤ r.length →
      findRange x r ≤ r.length - 2 ∧ findRange x r + 1 < r.length ∧
      (r.get? (findRange x r)).isSome = true ∧ (r.get? (findRange x r + 1)).isSome = true := by
  intro x r h
  have h1 := findRange_le x r h
  refine ⟨h1, by omega, ?_, ?_⟩
  · rw [get?_eq_some_getD r Num.nan _ (by omega)]
    rfl
  · rw [get?_eq_some_getD r Num.nan _ (by omega)]
    rfl

/-- Witness for C10 at a NaN input. -/
theorem c10_witness :
    findRange Num.nan [Num.fin 0, Num.fin 1] ≤ ([Num.fin 0, Num.fin 1] : List Num).length - 2 ∧
    findRange Num.nan [Num.fin 0, Num.fin 1] + 1 < ([Num.fin 0, Num.fin 1] : List Num).length ∧
    (([Num.fin 0, Num.fin 1] : List Num).get? (findRange Num.nan [Num.fin 0, Num.fin 1])).isSome = true ∧
    (([Num.fin 0, Num.fin 1] : List Num).get?
      (findRange Num.nan [Num.fin 0, Num.fin 1] + 1)).isSome = true :=
  c10_range_index_in_bounds Num.nan [Num.fin 0, Num.fin 1] (by decide)

/-- Counterexample to C4 as stated: the claim reads the degenerate
zero-width-segment comparison as applied to the clamp-replaced `x`
(`specClaimDegenerate`), predicting `outputMin = 1` for
`interpolate(6, [5,5], [1,2])` with right clamp (6 clamps to 5 ≤ 5);
the code compares the original input (6 ≤ 5 is false) and returns
`outputMax = 2`. -/
theorem c4_counterexample :
    specClaimDegenerate 6 5 5 1 2 .extend .clamp = some 1 ∧
    interpolateJS (.fin 6) (.fin 5) (.fin 5) (.fin 1) (.fin 2) id .extend .clamp = .fin 2 ∧
    (Num.fin 2 : Num) ≠ .fin 1 := by decide

/-- C4 amended: after extrapolation handling (and provided neither side
used identity), `outputMin == outputMax` returns that constant regardless
of the input, and a zero-width segment returns `outputMin`/`outputMax`
according to `x <= inputMin` applied to the ORIGINAL input `x` (not the
clamp-replaced value).  `map(x, [5,5], [1,2])` is 1 for `x ≤ 5`, else 2. -/
theorem c4_amended :
    (∀ (x a b c d : ℚ) (e : Num → Num) (el er : Extrapolate),
        el ≠ .identity → er ≠ .identity → c = d →
        interpolateJS (.fin x) (.fin a) (.fin b) (.fin c) (.fin d) e el er = .fin c) ∧
    (∀ (x a c d : ℚ) (e : Num → Num) (el er : Extrapolate),
        el ≠ .identity → er ≠ .identity →
        interpolateJS (.fin x) (.fin a) (.fin a) (.fin c) (.fin d) e el er =
          (if x ≤ a then .fin c else .fin d)) ∧
    (∀ x : ℚ, evalNumericMapper [.fin 5, .fin 5] [.fin 1, .fin 2] id .extend .extend (.fin x) =
      (if x ≤ 5 then .fin 1 else .fin 2)) := by
  refine ⟨?_, ?_, ?_⟩
  · intro x a b c d e el er hel her hcd
    simp [interpolateJS, Num.gt, hel, her, hcd]
  · intro x a c d e el er hel her
    rcases eq_or_ne c d with hcd | hcd
    · simp [interpolateJS, Num.gt, hel, her, hcd]
    · rcases le_or_lt x a with hxa | hxa
      · simp [interpolateJS, Num.gt, hel, her, hcd, hxa]
      · simp [interpolateJS, Num.gt, hel, her, hcd, hxa, not_le.mpr hxa]
  · intro x
    rcases le_or_lt x 5 with hx | hx
    · simp [evalNumericMapper, findRange, findRangeGo, interpolateJS, Num.gt, Num.ge, hx]
    · simp [evalNumericMapper, findRange, findRangeGo, interpolateJS, Num.gt, Num.ge, hx,
        not_le.mpr hx]

/-- Witness for C4 amended. -/
theorem c4_witness :
    interpolateJS (.fin 9) (.fin 2) (.fin 3) (.fin 7) (.fin 7) id .extend .clamp = .fin 7 :=
  c4_amended.1 9 2 3 7 7 id .extend .clamp (by decide) (by decide) rfl

/-- Counterexample to C3 as stated: "with clamp, x is replaced by
inputMax before mapping" fails on a zero-width segment.  With
`interpolate(7, [5,5], [1,2], extrapolateRight = clamp)` the code returns
2, while evaluating at the replaced input 5 returns 1: the zero-width
branch compares the original input. -/
theorem c3_counterexample :
    interpolateJS (.fin 7) (.fin 5) (.fin 5) (.fin 1) (.fin 2) id .extend .clamp ≠
      interpolateJS (.fin 5) (.fin 5) (.fin 5) (.fin 1) (.fin 2) id .extend .clamp ∧
    interpolateJS (.fin 7) (.fin 5) (.fin 5) (.fin 1) (.fin 2) id .extend .clamp = .fin 2 ∧
    interpolateJS (.fin 5) (.fin 5) (.fin 5) (.fin 1) (.fin 2) id .extend .clamp = .fin 1 := by
  decide

/-- C3 amended: below the segment, identity returns `x` unchanged and
bypasses everything; left clamp is equivalent to full replacement of `x`
by `inputMin`; extend continues the segment slope.  Mirrored at the high
end EXCEPT that right clamp is equivalent to replacement only on segments
of positive width; on a zero-width segment the original `x` decides the
degenerate branch and the result is `outputMax`.  Concretely
`map(-1, [0,1], [0,10])` is 0 under clamp, -1 under identity, -10 under
extend. -/
theorem c3_amended :
    (∀ (x a b c d : ℚ) (e : Num → Num) (er : Extrapolate), x < a →
        interpolateJS (.fin x) (.fin a) (.fin b) (.fin c) (.fin d) e .identity er = .fin x) ∧
    (∀ (x a b c d : ℚ) (e : Num → Num) (er : Extrapolate), x < a →
        interpolateJS (.fin x) (.fin a) (.fin b) (.fin c) (.fin d) e .clamp er =
          interpolateJS (.fin a) (.fin a) (.fin b) (.fin c) (.fin d) e .extend er) ∧
    (∀ (x a b c d : ℚ) (er : Extrapolate), x < a → a < b →
        interpolateJS (.fin x) (.fin a) (.fin b) (.fin c) (.fin d) id .extend er =
          .fin ((x - a) / (b - a) * (d - c) + c)) ∧
    (∀ (x a b c d : ℚ) (e : Num → Num) (el : Extrapolate), a ≤ b → b < x →
        interpolateJS (.fin x) (.fin a) (.fin b) (.fin c) (.fin d) e el .identity = .fin x) ∧
    (∀ (x a b c d : ℚ) (e : Num → Num) (el : Extrapolate), a < b → b < x →
        interpolateJS (.fin x) (.fin a) (.fin b) (.fin c) (.fin d) e el .clamp =
          interpolateJS (.fin b) (.fin a) (.fin b) (.fin c) (.fin d) e el .extend) ∧
    (∀ (x a c d : ℚ) (e : Num → Num) (el : Extrapolate), a < x →
        interpolateJS (.fin x) (.fin a) (.fin a) (.fin c) (.fin d) e el .clamp = .fin d) ∧
    (∀ (x a b c d : ℚ) (el : Extrapolate), a < b → b < x →
        interpolateJS (.fin x) (.fin a) (.fin b) (.fin c) (.fin d) id el .extend =
          .fin ((x - a) / (b - a) * (d - c) + c)) ∧
    evalNumericMapper [.fin 0, .fin 1] [.fin 0, .fin 10] id .clamp .extend (.fin (-1)) = .fin 0 ∧
    evalNumericMapper [.fin 0, .fin 1] [.fin 0, .fin 10] id .identity .extend (.fin (-1)) = .fin (-1) ∧
    evalNumericMapper [.fin 0, .fin 1] [.fin 0, .fin 10] id .extend .extend (.fin (-1)) = .fin (-10) := by
  refine ⟨?_, ?_, ?_, ?_, ?_, ?_, ?_, ?_, ?_, ?_⟩
  · intro x a b c d e er hx
    simp [interpolateJS, hx]
  · intro x a b c d e er hx
    simp [interpolateJS, Num.gt, hx, le_of_lt hx]
  · intro x a b c d er hx hab
    have h1 : ¬ b < x := by linarith
    have h2 : b - a ≠ 0 := sub_ne_zero.mpr hab.ne'
    rcases eq_or_ne c d with hcd | hcd
    · simp [interpolateJS, Num.gt, hx, hab.ne, h1, h2, hcd]
    · simp [interpolateJS, Num.gt, hx, hab.ne, h1, h2, hcd]
  · intro x a b c d e el hab hbx
    have h1 : ¬ x < a := by linarith
    simp [interpolateJS, Num.gt, hbx, h1]
  · intro x a b c d e el hab hbx
    have h1 : ¬ x < a := by linarith
    have h2 : ¬ b < a := by linarith
    have h3 : ¬ b < b := lt_irrefl b
    simp [interpolateJS, Num.gt, hbx, h1, h2, h3, hab.ne]
  · intro x a c d e el hax
    have h1 : ¬ x < a := by linarith
    have h2 : ¬ x ≤ a := not_le.mpr hax
    rcases eq_or_ne c d with hcd | hcd
    · simp [interpolateJS, Num.gt, hax, h1, hcd]
    · simp [interpolateJS, Num.gt, hax, h1, h2, hcd]
  · intro x a b c d el hab hbx
    have h1 : ¬ x < a := by linarith
    have h2 : b - a ≠ 0 := sub_ne_zero.mpr hab.ne'
    rcases eq_or_ne c d with hcd | hcd
    · simp [interpolateJS, Num.gt, hbx, h1, hab.ne, h2, hcd]
    · simp [interpolateJS, Num.gt, hbx, h1, hab.ne, h2, hcd]
  · simp [evalNumericMapper, findRange, findRangeGo, interpolateJS, Num.gt, Num.ge]
  · simp [evalNumericMapper, findRange, findRangeGo, interpolateJS, Num.gt, Num.ge]
  · simp [evalNumericMapper, findRange, findRangeGo, interpolateJS, Num.gt, Num.ge]

/-- Witness for C3 amended. -/
theorem c3_witness :
    interpolateJS (.fin 1) (.fin 2) (.fin 9) (.fin 4) (.fin 6) id .identity .extend = .fin 1 :=
  c3_amended.1 1 2 9 4 6 id .extend (by norm_num)

/-- Counterexample to C1 as stated: on a degenerate (zero-width) segment
the two tiers disagree.  For `inputRange = [0,5,5]`, `outputRange =
[0,1,2]`, input 6 (extend/extend), the selected segment is `[5,5] → [1,2]`;
the JS evaluator returns 2 via its zero-width shortcut while the Java
evaluator divides by `inputMax - inputMin = 0` and returns +∞ (no
floating-point tolerance reconciles a finite value with an infinity). -/
theorem c1_counterexample :
    evalNumericMapper [.fin 0, .fin 5, .fin 5] [.fin 0, .fin 1, .fin 2] id .extend .extend
      (.fin 6) = .fin 2 ∧
    interpolateJavaRange (.fin 6) [.fin 0, .fin 5, .fin 5] [.fin 0, .fin 1, .fin 2]
      .extend .extend = Num.posInf ∧
    (Num.fin 2 : Num) ≠ Num.posInf := by
  refine ⟨?_, ?_, by decide⟩
  · simp [evalNumericMapper, findRange, findRangeGo, interpolateJS, Num.gt, Num.ge] <;> norm_num
  · simp [interpolateJavaRange, findRangeIndex, findRangeGo, interpolateJava, Num.gt,
      Num.ge] <;> norm_num

/-- C1 amended: on finite inputs over ranges whose adjacent input entries
are strictly increasing (no zero-width and no infinite-bound segments)
with finite numeric outputs and linear easing, the Java evaluator
(`findRangeIndex` + `interpolate`) agrees exactly with the JS evaluator
(`findRange` + `interpolate`). -/
theorem c1_amended (x : ℚ) (inR outR : List ℚ) (el er : Extrapolate)
    (hlen : 2 ≤ inR.length) (heq : inR.length = outR.length)
    (hstrict : ∀ i, i + 1 < inR.length → inR.getD i 0 < inR.getD (i + 1) 0) :
    evalNumericMapper (inR.map Num.fin) (outR.map Num.fin) id el er (.fin x) =
      interpolateJavaRange (.fin x) (inR.map Num.fin) (outR.map Num.fin) el er := by
  have hmlen : (inR.map Num.fin).length = inR.length := by simp
  have hle := findRange_le (.fin x) (inR.map Num.fin) (by omega)
  rw [hmlen] at hle
  have hfr : findRangeIndex (.fin x) (inR.map Num.fin) = findRange (.fin x) (inR.map Num.fin) := rfl
  simp only [evalNumericMapper, interpolateJavaRange, hfr]
  set i0 := findRange (.fin x) (inR.map Num.fin) with hi0
  have hb1 : i0 < inR.length := by omega
  have hb2 : i0 + 1 < inR.length := by omega
  have hb3 : i0 < outR.length := by omega
  have hb4 : i0 + 1 < outR.length := by omega
  rw [getD_map_fin inR i0 hb1, getD_map_fin inR (i0 + 1) hb2,
    getD_map_fin outR i0 hb3, getD_map_fin outR (i0 + 1) hb4]
  exact interpolate_seg_eq x _ _ _ _ el er (hstrict i0 hb2)

/-- Witness for C1 amended. -/
theorem c1_witness :
    evalNumericMapper ([(0 : ℚ), 1].map Num.fin) ([(0 : ℚ), 10].map Num.fin) id
      .extend .extend (.fin (1/2)) =
      interpolateJavaRange (.fin (1/2)) ([(0 : ℚ), 1].map Num.fin) ([(0 : ℚ), 10].map Num.fin)
        .extend .extend :=
  c1_amended (1/2) [0, 1] [0, 10] .extend .extend (by decide) (by decide)
    (by
      intro i h
      have hi : i = 0 := by simp at h; omega
      subst hi
      norm_num)

/-- C7: the export transformation passes numbers through unchanged,
converts `deg`-suffixed strings to radians via `parseFloat(value) || 0`
times `Math.PI / 180` — `["0deg", "90deg"]` exports as
`[0, 884279719003555/562949953421312]`, the exact value of the binary64
`Math.PI / 2` printed as 1.5707963267948966, within 10⁻¹⁵ of the claim's
literal — parses other numeric strings as already-radians, resolves node
references to their native tag, and fails when the tag is absent (or the
JS-falsy tag 0). -/
theorem c7_transform_output_range :
    (∀ v : Num, transformOne (.num v) = .ok v) ∧
    transformOutputRange [.str "0deg", .str "90deg"] =
      .ok [.fin 0, .fin (884279719003555 / 562949953421312)] ∧
    transformOne (.str "1.5") = .ok (.fin (3/2)) ∧
    (∀ t : ℕ, t ≠ 0 → transformOne (.node (some t)) = .ok (.fin (t : ℚ))) ∧
    transformOne (.node none) = .error "There must be a native tag for this value." ∧
    transformOne (.node (some 0)) = .error "There must be a native tag for this value." ∧
    |(884279719003555 / 562949953421312 : ℚ) - 15707963267948966 / 10000000000000000| <
      1 / 1000000000000000 := by
  refine ⟨fun v => rfl, ?_, ?_, ?_, rfl, rfl, ?_⟩
  · have h0 : parseFloatOr0 "0deg" = .fin 0 := by
      simp [parseFloatOr0, parseFloatNum, parseFloatMag, parseFloatMag.parseExpPart, digitsToNat]
    have h90 : parseFloatOr0 "90deg" = .fin 90 := by
      simp [parseFloatOr0, parseFloatNum, parseFloatMag, parseFloatMag.parseExpPart,
        digitsToNat] <;> norm_num
    have hd : endsWithDeg "0deg" = true ∧ endsWithDeg "90deg" = true := by decide
    simp [transformOutputRange, transformOne, hd.1, hd.2, h0, h90, piDouble] <;> norm_num
  · have h15 : parseFloatNum "1.5" = .fin (3/2) := by
      simp [parseFloatNum, parseFloatMag, parseFloatMag.parseExpPart, digitsToNat] <;> norm_num
    have hd : endsWithDeg "1.5" = false := by decide
    simp [transformOne, hd, parseFloatOr0, h15]
  · intro t ht
    simp [transformOne, ht]
  · rw [abs_sub_lt_iff]
    constructor <;> norm_num

/-- Witness for C7. -/
theorem c7_witness : transformOne (.node (some 7)) = .ok (.fin ((7 : ℕ) : ℚ)) :=
  c7_transform_output_range.2.2.2.1 7 (by decide)

/-- C8: an output-range entry that is neither a number, a string, nor a
node reference does NOT surface an error: the code's
`invariant(true, 'Incompatible type passed to outputRange')` never fires
(its condition is literally `true`), and the entry is silently exported
as 0 — contradicting the assertion message's evident intent. -/
theorem c8_incompatible_entry_silently_zero :
    transformOne OutExportEntry.other = .ok (.fin 0) ∧
    transformOutputRange [.num (.fin 1), OutExportEntry.other] = .ok [.fin 1, .fin 0] :=
  ⟨rfl, rfl⟩

/-- The example graph is a well-formed arena. -/
theorem exampleGraph_wf : WfGraph exampleGraph := by
  intro i
  constructor
  · intro p hp
    rcases i with _ | _ | _ | _ | i <;> simp [exampleGraph] at hp <;> omega
  · intro d hd
    rcases i with _ | _ | _ | _ | i <;> simp [exampleGraph] at hd <;> rcases hd with rfl | rfl <;> omega

/-- C9: promotion constructs a node's native counterpart only after its
parent's and its node-valued output-range entries' (order preserved in
the construction trace), every node is constructed at most once
(dedupe by identity keeps the trace duplicate-free), re-promotion of an
already-promoted closed set is a no-op, and on the spec's example graph
(node 3 referencing nodes 1 and 2 which share ancestor 0) the trace is
exactly [0, 1, 2, 3]. -/
theorem c9_promotion_order :
    (∀ (g : ℕ → NodeSpec) (s : List ℕ) (i : ℕ), WfGraph g → DepsBefore g s →
        DepsBefore g (makeNative g i s) ∧ i ∈ makeNative g i s ∧
        ∀ d ∈ depsOf g i, d ∈ makeNative g i s) ∧
    (∀ (g : ℕ → NodeSpec) (s : List ℕ) (i : ℕ), s.Nodup → (makeNative g i s).Nodup) ∧
    (∀ (g : ℕ → NodeSpec) (s : List ℕ) (i : ℕ), DepsClosed g s → i ∈ s → makeNative g i s = s) ∧
    makeNative exampleGraph 3 [] = [0, 1, 2, 3] := by
  refine ⟨?_, ?_, ?_, by decide⟩
  · intro g s i hg hs
    have h := makeNativeF_depsBefore g hg (i + 1) i (by omega) s hs
    exact ⟨h.1, makeNativeF_mem g (i + 1) i s (by omega), h.2⟩
  · intro g s i hs
    exact makeNativeF_nodup g (i + 1) i s hs
  · intro g s i hc hi
    exact makeNativeF_noop g (i + 1) i s hc hi

/-- Witness for C9 on the example graph. -/
theorem c9_witness :
    DepsBefore exampleGraph (makeNative exampleGraph 3 []) ∧
    3 ∈ makeNative exampleGraph 3 [] ∧
    ∀ d ∈ depsOf exampleGraph 3, d ∈ makeNative exampleGraph 3 [] :=
  c9_promotion_order.1 exampleGraph [] 3 exampleGraph_wf
    (by intro k j h d hd; simp at h)

/-- Counterexample to C5 as stated: the converse direction fails.  The
configuration `inputRange = [0,1,2]`, `outputRange = ["a1b","a2b","ab"]`
satisfies every condition the claim lists — both ranges have length 3,
the lengths match, the input range is monotone and not the sole
`(-∞, +∞)` pair, and the three skeletons all equal `"ab"` — yet
construction errors: the token-free entry `"ab"` makes
`value.match(stringShapeRegex)` return `null`, and the code's `.forEach`
on that `null` throws a TypeError. -/
theorem c5_counterexample :
    okB (createInterpolationChecked normalizeColorModel
      ⟨[.fin 0, .fin 1, .fin 2], .strs ["a1b", "a2b", "ab"], id, .extend, .extend⟩) = false ∧
    ([Num.fin 0, Num.fin 1, Num.fin 2] : List Num).length =
      (["a1b", "a2b", "ab"] : List String).length ∧
    okB (checkPatternExc ((["a1b", "a2b", "ab"] : List String).map
      (colorToRgba normalizeColorModel))) = true ∧
    monotoneOK [Num.fin 0, Num.fin 1, Num.fin 2] = true ∧
    doubleInf [Num.fin 0, Num.fin 1, Num.fin 2] = false := by
  decide

/-- C5 amended: construction-time validation, as implemented.  For
numeric output ranges, construction succeeds iff the input range has
length ≥ 2, each adjacent input pair satisfies the IEEE comparison
`inputRange[i] >= inputRange[i-1]` (NaN entries fail it, so some ranges
that decrease nowhere still error), neither range is the sole
two-element `(-∞, +∞)`, and the lengths match; node-reference ranges
are identical minus the output-infinity test.  For string ranges:
fewer than two entries, mismatched skeletons after color normalization
(e.g. `["1px", "2deg"]`), or any token-free entry (whose
`value.match(stringShapeRegex)` is `null` and the `.forEach` on it
throws) fail at construction; construction succeeds when additionally
all entries share the same positive token count, the entry count equals
the input length and the input range passes its checks.  Matching
skeletons do not force matching token counts, so a configuration can
meet every condition the claim lists and still fail (the counterexample,
and the ragged `["a1b2", "a34b"]` below whose second channel has one
element); every listed failure occurs at construction, never at
evaluation (the compiled evaluators of this model are total
functions). -/
theorem c5_amended :
    (∀ (norm : String → Option ℕ) (inR outR : List Num) (e : Num → Num) (el er : Extrapolate),
        okB (createInterpolationChecked norm ⟨inR, .nums outR, e, el, er⟩) = true ↔
          (2 ≤ outR.length ∧ doubleInf outR = false ∧ 2 ≤ inR.length ∧ doubleInf inR = false ∧
           monotoneOK inR = true ∧ inR.length = outR.length)) ∧
    (∀ (norm : String → Option ℕ) (inR : List Num) (ids : List ℕ) (e : Num → Num)
        (el er : Extrapolate),
        okB (createInterpolationChecked norm ⟨inR, .nodes ids, e, el, er⟩) = true ↔
          (2 ≤ ids.length ∧ 2 ≤ inR.length ∧ doubleInf inR = false ∧
           monotoneOK inR = true ∧ inR.length = ids.length)) ∧
    (∀ (norm : String → Option ℕ) (inR : List Num) (strs : List String) (e : Num → Num)
        (el er : Extrapolate),
        checkPatternExc (strs.map (colorToRgba norm)) ≠ .ok () →
        okB (createInterpolationChecked norm ⟨inR, .strs strs, e, el, er⟩) = false) ∧
    (∀ (norm : String → Option ℕ) (inR : List Num) (strs : List String) (e : Num → Num)
        (el er : Extrapolate),
        strs.length < 2 →
        okB (createInterpolationChecked norm ⟨inR, .strs strs, e, el, er⟩) = false) ∧
    (∀ (norm : String → Option ℕ) (inR : List Num) (strs : List String) (e : Num → Num)
        (el er : Extrapolate) (s : String),
        s ∈ strs → tokenValues (colorToRgba norm s) = [] →
        okB (createInterpolationChecked norm ⟨inR, .strs strs, e, el, er⟩) = false) ∧
    (∀ (norm : String → Option ℕ) (inR : List Num) (strs : List String) (e : Num → Num)
        (el er : Extrapolate) (k : ℕ),
        2 ≤ strs.length →
        checkPatternExc (strs.map (colorToRgba norm)) = .ok () →
        (∀ s ∈ strs.map (colorToRgba norm), (splitRuns s.data).length = k) → 0 < k →
        inR.length = strs.length → monotoneOK inR = true → doubleInf inR = false →
        okB (createInterpolationChecked norm ⟨inR, .strs strs, e, el, er⟩) = true) ∧
    okB (createInterpolationChecked normalizeColorModel
      ⟨[.fin 0, .fin 1], .strs ["1px", "2deg"], id, .extend, .extend⟩) = false ∧
    (okB (checkPatternExc ((["a1b2", "a34b"] : List String).map
        (colorToRgba normalizeColorModel))) = true ∧
      ([Num.fin 0, Num.fin 1] : List Num).length = (["a1b2", "a34b"] : List String).length ∧
      okB (createInterpolationChecked normalizeColorModel
        ⟨[.fin 0, .fin 1], .strs ["a1b2", "a34b"], id, .extend, .extend⟩) = false) := by
  have hstrs := createInterpolationChecked_strs
  refine ⟨?_, ?_, ?_, ?_, ?_, ?_, ?_, by decide⟩
  · intro norm inR outR e el er
    have h := numericChecks_ok_iff inR outR
    simp only [createInterpolationChecked]
    rcases hE : numericChecks inR outR with e' | u
    · rw [hE] at h
      simpa [okB] using h
    · cases u
      rw [hE] at h
      simpa [okB] using h
  · intro norm inR ids e el er
    have h := nodeChecks_ok_iff inR ids
    simp only [createInterpolationChecked]
    rcases hE : nodeChecks inR ids with e' | u
    · rw [hE] at h
      simpa [okB] using h
    · cases u
      rw [hE] at h
      simpa [okB] using h
  · intro norm inR strs e el er hpat
    rw [hstrs]
    exact createFromString_err_pattern norm inR strs e el er hpat
  · intro norm inR strs e el er hshort
    rw [hstrs]
    exact createFromString_err_short norm inR strs e el er hshort
  · intro norm inR strs e el er s hs hz
    rw [hstrs]
    exact createFromString_err_zerotoken norm inR strs e el er s hs hz
  · intro norm inR strs e el er k hlen hpat hk hk0 hin hmono hinf
    rw [hstrs]
    exact createFromString_ok norm inR strs e el er k hlen hpat hk hk0 hin hmono hinf
  · rw [hstrs]
    apply createFromString_err_pattern
    intro hok
    have h2 := (checkPatternExc_ok_iff _).mp hok (colorToRgba normalizeColorModel "2deg")
      (by decide)
    revert h2
    decide

/-- Witness for C5 amended: a numeric configuration passing all checks
constructs, via the first conjunct. -/
theorem c5_witness :
    okB (createInterpolationChecked normalizeColorModel
      ⟨[Num.fin 0, Num.fin 1], .nums [Num.fin 3, Num.fin 4], id, .extend, .extend⟩) = true :=
  (c5_amended.1 normalizeColorModel [Num.fin 0, Num.fin 1] [Num.fin 3, Num.fin 4]
    id .extend .extend).mpr (by decide)

/-! ### String-pattern pipeline: concrete rgba example -/

theorem normalizeColorModel_rgba0 : normalizeColorModel "rgba(0,0,0,0)" = some 0 := by
  have hmap : (splitCommas (("rgba(0,0,0,0)".data.drop 5).dropLast)).map
      (fun cs => parseNumQ (trimSpaces cs)) = [.fin 0, .fin 0, .fin 0, .fin 0] := by decide
  simp only [normalizeColorModel]
  rw [if_pos (by decide)]
  simp only [hmap]
  rw [if_pos (by decide)]
  norm_num [jsRound] <;> decide

theorem normalizeColorModel_rgba255 :
    normalizeColorModel "rgba(255,255,255,1)" = some 4294967295 := by
  have hmap : (splitCommas (("rgba(255,255,255,1)".data.drop 5).dropLast)).map
      (fun cs => parseNumQ (trimSpaces cs)) = [.fin 255, .fin 255, .fin 255, .fin 1] := by decide
  simp only [normalizeColorModel]
  rw [if_pos (by decide)]
  simp only [hmap]
  rw [if_pos (by decide)]
  norm_num [jsRound] <;> decide

theorem decimalString_zero : decimalString 0 = "0" := by
  norm_num [decimalString]
  rfl

theorem decimalString_one : decimalString 1 = "1" := by
  norm_num [decimalString]
  rfl

theorem colorToRgba_rgba0 :
    colorToRgba normalizeColorModel "rgba(0,0,0,0)" = "rgba(0, 0, 0, 0)" := by
  simp only [colorToRgba, normalizeColorModel_rgba0]
  norm_num [decimalString_zero]
  rfl

theorem colorToRgba_rgba255 :
    colorToRgba normalizeColorModel "rgba(255,255,255,1)" = "rgba(255, 255, 255, 1)" := by
  simp only [colorToRgba, normalizeColorModel_rgba255]
  norm_num [decimalString_one]
  rfl

theorem strConstructionRgbaExample :
    createFromStringOutputRange normalizeColorModel [.fin 0, .fin 1]
      ["rgba(0,0,0,0)", "rgba(255,255,255,1)"] id .extend .extend =
    .ok ⟨"rgba(0, 0, 0, 0)", true, [.fin 0, .fin 1],
      [[.fin 0, .fin 255], [.fin 0, .fin 255], [.fin 0, .fin 255], [.fin 0, .fin 1]],
      id, .extend, .extend⟩ := by
  simp only [createFromStringOutputRange, List.map_cons, List.map_nil,
    colorToRgba_rgba0, colorToRgba_rgba255]
  rfl

theorem decimalString_natCast (n : ℕ) : decimalString (n : ℚ) = natToStr n := by
  have h0 : ¬ ((n : ℚ) < 0) := not_lt.mpr (by positivity)
  simp only [decimalString, if_neg h0, Int.floor_natCast]
  simp

theorem decimalString_half : decimalString (1/2 : ℚ) = "0.5" := by
  have h0 : ¬ ((1/2 : ℚ) < 0) := by norm_num
  have hfl : ⌊(1/2 : ℚ)⌋ = 0 := by norm_num
  have hfr : (1/2 : ℚ) - ((0 : ℤ) : ℚ) = 1/2 := by norm_num
  have hne : ¬ ((1/2 : ℚ) = 0) := by norm_num
  have hsc : ⌊(1/2 : ℚ) * 100000000000000000 + 1/2⌋ = 50000000000000000 := by norm_num
  simp only [decimalString, if_neg h0, hfl, hfr, if_neg hne, hsc]
  rfl

theorem decimalString_128 : decimalString (128 : ℚ) = "128" := by
  have h0 : ¬ ((128 : ℚ) < 0) := by norm_num
  have hfl : ⌊(128 : ℚ)⌋ = 128 := by norm_num
  have hfr : (128 : ℚ) - ((128 : ℤ) : ℚ) = 0 := by norm_num
  simp only [decimalString, if_neg h0, hfl, hfr, if_pos rfl]
  rfl

theorem formatChannelValue_128 (k : ℕ) (hk : k < 4) :
    formatChannelValue true k (.fin (255/2)) = "128" := by
  have hj : jsRound ((255 : ℚ)/2) = 128 := by norm_num [jsRound]
  simp [formatChannelValue, roundNum, numToStrNum, hk, hj, decimalString_128]

theorem formatChannelValue_alpha : formatChannelValue true 4 (.fin (1/2)) = "0.5" := by
  have hj : jsRound ((1 : ℚ)/2 * 1000) = 500 := by norm_num [jsRound]
  have hv : (((500 : ℤ) : ℚ)) / 1000 = 1/2 := by norm_num
  simp only [formatChannelValue]
  rw [if_neg (by decide)]
  simp only [round3Num, hj, hv, numToStrNum, decimalString_half]

theorem chEval255 :
    evalNumericMapper [.fin 0, .fin 1] [.fin 0, .fin 255] id .extend .extend (.fin (1/2)) =
      .fin (255/2) := by
  simp [evalNumericMapper, findRange, findRangeGo, interpolateJS, Num.gt, Num.ge] <;> norm_num

theorem chEval1 :
    evalNumericMapper [.fin 0, .fin 1] [.fin 0, .fin 1] id .extend .extend (.fin (1/2)) =
      .fin (1/2) := by
  simp [evalNumericMapper, findRange, findRangeGo, interpolateJS, Num.gt, Num.ge] <;> norm_num

theorem strEvalRgbaExample :
    evalStringMapper ⟨"rgba(0, 0, 0, 0)", true, [.fin 0, .fin 1],
      [[.fin 0, .fin 255], [.fin 0, .fin 255], [.fin 0, .fin 255], [.fin 0, .fin 1]],
      id, .extend, .extend⟩ (.fin (1/2)) = "rgba(128, 128, 128, 0.5)" := by
  simp only [evalStringMapper, evalReps, chEval255, chEval1,
    formatChannelValue_128 1 (by omega), formatChannelValue_128 2 (by omega),
    formatChannelValue_128 3 (by omega)]
  norm_num [formatChannelValue_alpha]
  rfl

theorem evalReps_get? (sm : StrMapper) (input : Num) :
    ∀ (chans : List (List Num)) (i j : ℕ), j < chans.length →
      (evalReps sm input chans i).get? j =
        some (formatChannelValue sm.shouldRound (i + j + 1)
          (evalNumericMapper sm.inputRange (chans.getD j []) sm.easing sm.extrapolateLeft
            sm.extrapolateRight input)) := by
  intro chans
  induction chans with
  | nil => intro i j h; simp at h
  | cons ch rest ih =>
    intro i j h
    cases j with
    | zero => simp [evalReps]
    | succ n =>
      simp only [evalReps, List.get?_cons_succ, List.getD_cons_succ]
      rw [ih (i + 1) n (by simpa using h)]
      have hcount : i + 1 + n + 1 = i + (n + 1) + 1 := by omega
      rw [hcount]

/-- C6: string evaluation substitutes the template's numeric token runs,
left to right, with the successive channels' mapped values: the `j`-th
replacement (0-based) is channel `j`'s mapped value formatted with the
post-incremented counter `j + 1`, and the rounding rule is integer
rounding exactly for the first three channels of an rgb/rgba template
(`shouldRound = true` and counter `< 4`), else rounding to 3 decimal
places.  Concretely, `["rgba(0,0,0,0)", "rgba(255,255,255,1)"]` at
`x = 0.5` over `[0,1]` evaluates to `"rgba(128, 128, 128, 0.5)"`. -/
theorem c6_string_pattern_evaluation :
    (∀ (sm : StrMapper) (input : Num),
        evalStringMapper sm input =
          String.mk (replaceRunsGo sm.template.data (evalReps sm input sm.channels 0) false)) ∧
    (∀ (sm : StrMapper) (input : Num) (chans : List (List Num)) (i j : ℕ), j < chans.length →
        (evalReps sm input chans i).get? j =
          some (formatChannelValue sm.shouldRound (i + j + 1)
            (evalNumericMapper sm.inputRange (chans.getD j []) sm.easing sm.extrapolateLeft
              sm.extrapolateRight input))) ∧
    (∀ (val : Num) (j : ℕ), formatChannelValue true (j + 1) val =
        (if j < 3 then numToStrNum (roundNum val) else numToStrNum (round3Num val))) ∧
    (∀ (val : Num) (j : ℕ), formatChannelValue false (j + 1) val = numToStrNum (round3Num val)) ∧
    Except.map (fun sm => evalStringMapper sm (.fin (1/2)))
        (createFromStringOutputRange normalizeColorModel [.fin 0, .fin 1]
          ["rgba(0,0,0,0)", "rgba(255,255,255,1)"] id .extend .extend) =
      .ok "rgba(128, 128, 128, 0.5)" := by
  refine ⟨fun sm input => rfl, evalReps_get?, ?_, ?_, ?_⟩
  · intro val j
    rcases Nat.lt_or_ge j 3 with h | h
    · have h4 : j + 1 < 4 := by omega
      simp [formatChannelValue, h, h4]
    · have h4 : ¬ (j + 1 < 4) := by omega
      simp [formatChannelValue, h4, Nat.not_lt.mpr h]
  · intro val j
    simp [formatChannelValue]
  · rw [strConstructionRgbaExample]
    simp only [Except.map]
    rw [strEvalRgbaExample]

/-- Witness for C6 at the example mapper. -/
theorem c6_witness :
    (evalReps ⟨"rgba(0, 0, 0, 0)", true, [.fin 0, .fin 1],
        [[.fin 0, .fin 255], [.fin 0, .fin 255], [.fin 0, .fin 255], [.fin 0, .fin 1]],
        id, .extend, .extend⟩ (.fin (1/2)) [[Num.fin 0, Num.fin 255]] 0).get? 0 =
      some (formatChannelValue true (0 + 0 + 1)
        (evalNumericMapper [.fin 0, .fin 1] ([[Num.fin 0, Num.fin 255]].getD 0 []) id .extend
          .extend (.fin (1/2)))) :=
  c6_string_pattern_evaluation.2.1 _ (.fin (1/2)) [[Num.fin 0, Num.fin 255]] 0 0 (by decide)

end RN
